import Mathlib

/-!
Shallow embedding of the configuration-merging programs in
`botconfig.go` (which contains two near-duplicate program variants,
modelled here as namespaces `BotV1` and `BotV2`) and `modelconfig.go`
(namespace `Model`).

Modelling conventions:
* Go `int` is modelled as `Int` (the merge logic only compares and copies).
* Go string maps used as sets (`includesSeen`, `allKeys`) are modelled as
  `List String` with membership; insertion uses `List.insert`, which is a
  no-op when the element is present, matching map-key insertion.
* The process-wide mutable `includesSeen` map is threaded through
  `mergeConfigs` as explicit state, in the exact places the Go code reads
  and writes it.
* File reading plus JSON decoding is modelled by an environment
  `env : String → Option DecodedFields`: `none` models a file that fails
  to open (`os.Open` error), `some p` models a present file whose decode
  applies exactly the fields recorded in `p`.  Go's
  `json.Decoder.Decode(&c)` overlays present well-typed fields onto `c`
  and leaves the rest alone; a syntactically malformed stream assigns no
  field at all (the decoder scans a complete value before unmarshalling),
  which is the `p` with every field `none`.
* `mergeConfigs` recurses through included files; since Go bounds this
  only through the seen-set, the Lean function takes a fuel argument and
  returns `none` exactly when the Go code would still be recursing after
  `fuel` nested `mergeConfigs` calls.
-/

/-- Character-level model of `strings.ReplaceAll(item, " ", "")` from
`removeDuplicateStr`: the pattern is the single space character, so the
call removes every space character of the string. -/
def stripSpaces (s : String) : String :=
  String.mk (s.data.filter (fun c => c ≠ ' '))

/-- Recursion core of `removeDuplicateStr` (identical in both variants of
`botconfig.go`): `seen` is the `allKeys` map, the result is the `list`
accumulator emitted in order. -/
def removeDuplicateStrAux (seen : List String) : List String → List String
  | [] => []
  | item :: rest =>
    let item' := stripSpaces item
    if item' ∈ seen then removeDuplicateStrAux seen rest
    else item' :: removeDuplicateStrAux (item' :: seen) rest

/-- Model of `removeDuplicateStr` from `botconfig.go` (lines 167-180 and
703-716; the two copies are textually identical). -/
def removeDuplicateStr (strSlice : List String) : List String :=
  removeDuplicateStrAux [] strSlice

/-- The `allKeys` set as it stands after `removeDuplicateStr` has walked
a list: used to state how the function distributes over `++`. -/
def seenFold (seen : List String) : List String → List String
  | [] => seen
  | x :: xs =>
    seenFold (if stripSpaces x ∈ seen then seen else stripSpaces x :: seen) xs

/-- Model of the `validVTuberSoftware` map: lookup of a missing key in a
Go `map[string]bool` yields `false`, present keys are all `true`. -/
def validVTuberSoftware (s : String) : Bool :=
  s = "None" || s = "Veadotube" || s = "VNyan" || s = "VTS"

/-- Package-level default from `botconfig.go`. -/
def defaultLPTalkingCost : Int := 250

/-- Package-level default from `botconfig.go` (`defaultLPTalkingCost * 2`). -/
def defaultLPGameCost : Int := defaultLPTalkingCost * 2

/-- Package-level default from `botconfig.go`. -/
def defaultVTuberSoftware : String := "VNyan"

/-- Package-level default tag list from `botconfig.go`. -/
def defaultTags : List String := ["FirstPlaythrough", "NoBackseating"]



namespace BotV1

/-- The `config` struct of the first program variant in `botconfig.go`
(lines 58-102), with Go zero values as field defaults. -/
@[ext] structure config where
  Include : String := ""
  StreamTags : List String := []
  TitleSuffix : String := ""
  VTuberSoftware : String := ""
  VNyanOutfit : String := ""
  DeathCounter : Bool := false
  DeskCam : Bool := false
  GamePad : Bool := false
  OrpaxMemorial : Bool := false
  PandaSign : String := ""
  Uptime : Bool := false
  OutfitPoll : Bool := false
  SongRequests : Bool := false
  BedTime : Bool := false
  ChosenOne : Bool := false
  CreepyTime : Bool := false
  LPGameCost : Int := 0
  LPTalkingCost : Int := 0
  NameAThing : Bool := false
  NoBeanie : Bool := false
  NoGlasses : Bool := false
  RaidRoulette : Bool := false
  Modlist : Bool := false
  NotifyInterval : Int := 0
  EndHour : Int := 0
  EndMinute : Int := 0
  GameFound : Bool := false
  GameName : String := ""
  OnCall : Bool := false
  PauseableGame : Bool := false
  YTGameInTitle : Bool := false
deriving DecidableEq

/-- Model of `newConfig()` (lines 104-118): the zero-value struct with the
listed non-standard defaults assigned. -/
def newConfig : config :=
  { ChosenOne := true
    LPGameCost := defaultLPGameCost
    LPTalkingCost := defaultLPTalkingCost
    NoGlasses := true
    NotifyInterval := 5
    OutfitPoll := true
    PandaSign := "default"
    PauseableGame := true
    RaidRoulette := true
    YTGameInTitle := true }

/-- The boolean-typed fields of `config`, in struct declaration order:
this is the list that the reflection loop of `mergeConfigs`
(lines 216-231) enumerates via `reflect.Bool`. -/
inductive BoolField where
  | DeathCounter | DeskCam | GamePad | OrpaxMemorial | Uptime
  | OutfitPoll | SongRequests | BedTime | ChosenOne | CreepyTime
  | NameAThing | NoBeanie | NoGlasses | RaidRoulette | Modlist
  | GameFound | OnCall | PauseableGame | YTGameInTitle
deriving DecidableEq

/-- Model of `getBool` (lines 120-123): reflective read of a boolean
field by name. -/
def getBool (c : config) : BoolField → Bool
  | .DeathCounter => c.DeathCounter
  | .DeskCam => c.DeskCam
  | .GamePad => c.GamePad
  | .OrpaxMemorial => c.OrpaxMemorial
  | .Uptime => c.Uptime
  | .OutfitPoll => c.OutfitPoll
  | .SongRequests => c.SongRequests
  | .BedTime => c.BedTime
  | .ChosenOne => c.ChosenOne
  | .CreepyTime => c.CreepyTime
  | .NameAThing => c.NameAThing
  | .NoBeanie => c.NoBeanie
  | .NoGlasses => c.NoGlasses
  | .RaidRoulette => c.RaidRoulette
  | .Modlist => c.Modlist
  | .GameFound => c.GameFound
  | .OnCall => c.OnCall
  | .PauseableGame => c.PauseableGame
  | .YTGameInTitle => c.YTGameInTitle

/-- Reflective write of a boolean field by name
(`reflect.ValueOf(&o).Elem().FieldByName(f).SetBool`). -/
def setBool (c : config) (f : BoolField) (v : Bool) : config :=
  match f with
  | .DeathCounter => { c with DeathCounter := v }
  | .DeskCam => { c with DeskCam := v }
  | .GamePad => { c with GamePad := v }
  | .OrpaxMemorial => { c with OrpaxMemorial := v }
  | .Uptime => { c with Uptime := v }
  | .OutfitPoll => { c with OutfitPoll := v }
  | .SongRequests => { c with SongRequests := v }
  | .BedTime => { c with BedTime := v }
  | .ChosenOne => { c with ChosenOne := v }
  | .CreepyTime => { c with CreepyTime := v }
  | .NameAThing => { c with NameAThing := v }
  | .NoBeanie => { c with NoBeanie := v }
  | .NoGlasses => { c with NoGlasses := v }
  | .RaidRoulette => { c with RaidRoulette := v }
  | .Modlist => { c with Modlist := v }
  | .GameFound => { c with GameFound := v }
  | .OnCall => { c with OnCall := v }
  | .PauseableGame => { c with PauseableGame := v }
  | .YTGameInTitle => { c with YTGameInTitle := v }

/-- Model of `resolveBool` (lines 125-130): AND when the field's default
in `newConfig()` is `true`, OR when it is `false`. -/
def resolveBool (a b : config) (field : BoolField) : Bool :=
  if getBool newConfig field then getBool a field && getBool b field
  else getBool a field || getBool b field

/-- The `boolsToResolve` list built by the reflection loop of
`mergeConfigs`: all boolean fields in struct order. -/
def boolsToResolve : List BoolField :=
  [.DeathCounter, .DeskCam, .GamePad, .OrpaxMemorial, .Uptime,
   .OutfitPoll, .SongRequests, .BedTime, .ChosenOne, .CreepyTime,
   .NameAThing, .NoBeanie, .NoGlasses, .RaidRoulette, .Modlist,
   .GameFound, .OnCall, .PauseableGame, .YTGameInTitle]

/-- The boolean-resolution loop of `mergeConfigs` (lines 227-231): for
each boolean field in order, overwrite `o`'s field with
`resolveBool(o, n, f)` (reading the current `o`, which at that point
still holds the original value of field `f`). -/
def resolveAllBools (o n : config) : config :=
  boolsToResolve.foldl (fun acc f => setBool acc f (resolveBool acc n f)) o

/-- The fields a JSON fragment may set on decode: one `Option` per struct
field (every field carries a json tag, so every field is decodable).
`none` means the key is absent from the input, or present but of the
wrong JSON type (Go's `Unmarshal` skips such a field and keeps going). -/
structure DecodedFields where
  Include : Option String := none
  StreamTags : Option (List String) := none
  TitleSuffix : Option String := none
  VTuberSoftware : Option String := none
  VNyanOutfit : Option String := none
  DeathCounter : Option Bool := none
  DeskCam : Option Bool := none
  GamePad : Option Bool := none
  OrpaxMemorial : Option Bool := none
  PandaSign : Option String := none
  Uptime : Option Bool := none
  OutfitPoll : Option Bool := none
  SongRequests : Option Bool := none
  BedTime : Option Bool := none
  ChosenOne : Option Bool := none
  CreepyTime : Option Bool := none
  LPGameCost : Option Int := none
  LPTalkingCost : Option Int := none
  NameAThing : Option Bool := none
  NoBeanie : Option Bool := none
  NoGlasses : Option Bool := none
  RaidRoulette : Option Bool := none
  Modlist : Option Bool := none
  NotifyInterval : Option Int := none
  EndHour : Option Int := none
  EndMinute : Option Int := none
  GameFound : Option Bool := none
  GameName : Option String := none
  OnCall : Option Bool := none
  PauseableGame : Option Bool := none
  YTGameInTitle : Option Bool := none
deriving DecidableEq

/-- Effect of `jsonParser.Decode(&c)` on a present file: each field that
the input carries replaces the corresponding field of `c`; every other
field keeps the value `c` already holds.  A syntactically malformed
stream corresponds to the `DecodedFields` with every field `none`
(Go's `Decode` returns a syntax error before assigning anything). -/
def applyDecoded (p : DecodedFields) (c : config) : config :=
  { Include := p.Include.getD c.Include
    StreamTags := p.StreamTags.getD c.StreamTags
    TitleSuffix := p.TitleSuffix.getD c.TitleSuffix
    VTuberSoftware := p.VTuberSoftware.getD c.VTuberSoftware
    VNyanOutfit := p.VNyanOutfit.getD c.VNyanOutfit
    DeathCounter := p.DeathCounter.getD c.DeathCounter
    DeskCam := p.DeskCam.getD c.DeskCam
    GamePad := p.GamePad.getD c.GamePad
    OrpaxMemorial := p.OrpaxMemorial.getD c.OrpaxMemorial
    PandaSign := p.PandaSign.getD c.PandaSign
    Uptime := p.Uptime.getD c.Uptime
    OutfitPoll := p.OutfitPoll.getD c.OutfitPoll
    SongRequests := p.SongRequests.getD c.SongRequests
    BedTime := p.BedTime.getD c.BedTime
    ChosenOne := p.ChosenOne.getD c.ChosenOne
    CreepyTime := p.CreepyTime.getD c.CreepyTime
    LPGameCost := p.LPGameCost.getD c.LPGameCost
    LPTalkingCost := p.LPTalkingCost.getD c.LPTalkingCost
    NameAThing := p.NameAThing.getD c.NameAThing
    NoBeanie := p.NoBeanie.getD c.NoBeanie
    NoGlasses := p.NoGlasses.getD c.NoGlasses
    RaidRoulette := p.RaidRoulette.getD c.RaidRoulette
    Modlist := p.Modlist.getD c.Modlist
    NotifyInterval := p.NotifyInterval.getD c.NotifyInterval
    EndHour := p.EndHour.getD c.EndHour
    EndMinute := p.EndMinute.getD c.EndMinute
    GameFound := p.GameFound.getD c.GameFound
    GameName := p.GameName.getD c.GameName
    OnCall := p.OnCall.getD c.OnCall
    PauseableGame := p.PauseableGame.getD c.PauseableGame
    YTGameInTitle := p.YTGameInTitle.getD c.YTGameInTitle }

/-- The `DecodedFields` value with every field `none`: what a
syntactically malformed byte stream decodes to. -/
def malformedDecode : DecodedFields := {}

/-- Model of `readFromFile` (lines 132-144): start from `newConfig` with
`GameFound = true`, clear `GameFound` when the open fails (an absent
source), then run the decoder (a no-op on an absent source, since the
decode from the nil file handle errors without assigning). -/
def readFromFile (env : String → Option DecodedFields) (f : String) : config :=
  match env f with
  | none => { newConfig with GameFound := false }
  | some p => applyDecoded p { newConfig with GameFound := true }

/-- The record produced for an absent source: the zero-value record with
`GameFound = false`. -/
def absentConfig : config := { newConfig with GameFound := false }

/-- The straight-line (non-include) part of `mergeConfigs`, split into
one definition per field group, applied in source order.  Tag merge,
lines 184-186. -/
def mergeTags (o n : config) : config :=
  { o with StreamTags := removeDuplicateStr (o.StreamTags ++ n.StreamTags) }

/-- Lines 188-194: a non-empty incoming `VTuberSoftware` replaces the
existing one only when it is a valid value. -/
def mergeVTuber (o n : config) : config :=
  if n.VTuberSoftware ≠ "" then
    (if validVTuberSoftware n.VTuberSoftware then
      { o with VTuberSoftware := n.VTuberSoftware }
    else o)
  else o

/-- Lines 196-198: last non-empty `TitleSuffix` wins. -/
def mergeTitle (o n : config) : config :=
  if n.TitleSuffix ≠ "" then { o with TitleSuffix := n.TitleSuffix } else o

/-- Lines 200-202: `NotifyInterval` is min-wins. -/
def mergeNotify (o n : config) : config :=
  if n.NotifyInterval < o.NotifyInterval then
    { o with NotifyInterval := n.NotifyInterval }
  else o

/-- Lines 204-206: `PandaSign` replaces unless it is the sentinel
`"default"`. -/
def mergePanda (o n : config) : config :=
  if n.PandaSign ≠ "default" then { o with PandaSign := n.PandaSign } else o

/-- Lines 208-210: nonzero `EndHour` overrides. -/
def mergeEndHour (o n : config) : config :=
  if n.EndHour ≠ 0 then { o with EndHour := n.EndHour } else o

/-- Lines 212-214: nonzero `EndMinute` overrides. -/
def mergeEndMinute (o n : config) : config :=
  if n.EndMinute ≠ 0 then { o with EndMinute := n.EndMinute } else o

/-- Lines 234-236: non-empty `VNyanOutfit` overrides. -/
def mergeOutfit (o n : config) : config :=
  if n.VNyanOutfit ≠ "" then { o with VNyanOutfit := n.VNyanOutfit } else o

/-- Lines 240-242: `LPGameCost` replaces unless it equals the default
sentinel. -/
def mergeLPGame (o n : config) : config :=
  if n.LPGameCost ≠ defaultLPGameCost then { o with LPGameCost := n.LPGameCost } else o

/-- Lines 245-247: `LPTalkingCost` replaces unless it equals the default
sentinel. -/
def mergeLPTalking (o n : config) : config :=
  if n.LPTalkingCost ≠ defaultLPTalkingCost then
    { o with LPTalkingCost := n.LPTalkingCost }
  else o

/-- Everything `mergeConfigs` does before the include block, in source
order (lines 182-247). -/
def mergeCore (o n : config) : config :=
  let o := mergeTags o n
  let o := mergeVTuber o n
  let o := mergeTitle o n
  let o := mergeNotify o n
  let o := mergePanda o n
  let o := mergeEndHour o n
  let o := mergeEndMinute o n
  let o := resolveAllBools o n
  let o := mergeOutfit o n
  let o := mergeLPGame o n
  mergeLPTalking o n

/-- Model of the first variant's `mergeConfigs` (lines 182-268).  The
global `includesSeen` map is the threaded `seen` list; `fuel` bounds the
include recursion depth, `none` meaning the Go code would still be
recursing.  Note that this variant records `includeFile` in the seen set
only *after* the recursive merge of the included file returns
(line 261 sits after the `mergeConfigs` call of line 259). -/
def mergeConfigs (env : String → Option DecodedFields) (root : String) :
    Nat → List String → config → config → Option (config × List String)
  | 0, _, _, _ => none
  | fuel + 1, seen, o, n =>
    let o1 := mergeCore o n
    if n.Include ≠ "" then
      let includeFile := root ++ "includes\\" ++ n.Include ++ ".json"
      if includeFile ∉ seen then
        let i := readFromFile env includeFile
        if i.GameFound then
          match mergeConfigs env root fuel seen o1 i with
          | none => none
          | some (o2, seen2) => some (o2, seen2.insert includeFile)
        else some (o1, seen.insert includeFile)
      else some (o1, seen)
    else some (o1, seen)

/-- The layer pipeline of `main` (lines 476-502): each present layer is
folded into the accumulator left to right with `mergeConfigs`, threading
the seen set. -/
def foldLayers (env : String → Option DecodedFields) (root : String) (fuel : Nat) :
    List String → config → List config → Option (config × List String)
  | seen, acc, [] => some (acc, seen)
  | seen, acc, l :: ls =>
    match mergeConfigs env root fuel seen acc l with
    | none => none
    | some (acc2, seen2) => foldLayers env root fuel seen2 acc2 ls

/-- Steps 1-3 of `applyOverrides` (lines 270-321): clear the include
reference, repair an invalid `VTuberSoftware`, then apply the
mode-dependent tag injection and feature disablement. -/
def applyOverridesPre (c : config) : config :=
  let c1 := { c with Include := "" }
  let c2 :=
    if validVTuberSoftware c1.VTuberSoftware then c1
    else { c1 with VTuberSoftware := defaultVTuberSoftware }
  match c2.VTuberSoftware with
  | "Veadotube" =>
    { c2 with
      StreamTags := removeDuplicateStr (["VTuber", "RedPanda", "ENVTuber"] ++ c2.StreamTags)
      OutfitPoll := false
      VNyanOutfit := ""
      NoBeanie := false }
  | "VTS" =>
    { c2 with
      StreamTags := removeDuplicateStr (["VTuber", "RedPanda", "Furry", "ENVTuber"] ++ c2.StreamTags)
      OutfitPoll := false
      VNyanOutfit := ""
      NoBeanie := false }
  | "VNyan" =>
    { c2 with
      StreamTags := removeDuplicateStr (["VTuber", "RedPanda", "Furry", "ENVTuber"] ++ c2.StreamTags)
      OutfitPoll := if c2.VNyanOutfit ≠ "" then false else c2.OutfitPoll
      NoBeanie := false }
  | _ => c2

/-- The list-length cap of `applyOverrides` (lines 323-329): keep the
first 10 tags when more than 10 are present. -/
def capTags (c : config) : config :=
  if 10 < c.StreamTags.length then { c with StreamTags := c.StreamTags.take 10 } else c

/-- The on-call override of `applyOverrides` (lines 331-337). -/
def onCallStep (onCallFlag : Bool) (c : config) : config :=
  if onCallFlag || c.OnCall then
    { c with OnCall := true, BedTime := false, CreepyTime := false, RaidRoulette := false }
  else c

/-- Model of `applyOverrides` (lines 270-340), as the composition of its
three stages in source order. -/
def applyOverrides (onCallFlag : Bool) (c : config) : config :=
  onCallStep onCallFlag (capTags (applyOverridesPre c))

/-- The environment in which no config file exists. -/
def envNone : String → Option DecodedFields := fun _ => none

/-- The include graph in which file A includes B and file B includes A. -/
def decA : DecodedFields := { Include := some "B" }

def decB : DecodedFields := { Include := some "A" }

def envCyc : String → Option DecodedFields := fun s =>
  if s = "includes\\A.json" then some decA
  else if s = "includes\\B.json" then some decB
  else none

end BotV1

namespace BotV2

/-- The `config` struct of the second program variant in `botconfig.go`
(lines 594-640), with Go zero values as field defaults. -/
@[ext] structure config where
  Include : String := ""
  StreamTags : List String := []
  TitleSuffix : String := ""
  VTuberSoftware : String := ""
  VNyanOutfit : String := ""
  DeathCounter : Bool := false
  DeskCam : Bool := false
  GamePad : Bool := false
  OrpaxMemorial : Bool := false
  PandaSign : String := ""
  Uptime : Bool := false
  OutfitPoll : Bool := false
  SongRequests : Bool := false
  BambooRequestCost : Int := 0
  BedTime : Bool := false
  ChosenOne : Bool := false
  CreepyTime : Bool := false
  JibberJabbey : Bool := false
  LPGameCost : Int := 0
  LPTalkingCost : Int := 0
  NameAThing : Bool := false
  NoBeanie : Bool := false
  RaidRoulette : Bool := false
  Modlist : Bool := false
  NotifyInterval : Int := 0
  EndHour : Int := 0
  EndMinute : Int := 0
  GameFound : Bool := false
  GameName : String := ""
  SanitizedGameName : String := ""
  OnCall : Bool := false
  PauseableGame : Bool := false
  YTGameInTitle : Bool := false
deriving DecidableEq

/-- Model of the second variant's `newConfig()` (lines 642-657). -/
def newConfig : config :=
  { BambooRequestCost := 20
    ChosenOne := true
    JibberJabbey := true
    LPGameCost := defaultLPGameCost
    LPTalkingCost := defaultLPTalkingCost
    NotifyInterval := 5
    OutfitPoll := true
    PandaSign := "default"
    PauseableGame := true
    RaidRoulette := true
    YTGameInTitle := true }

/-- The boolean-typed fields of the second variant's `config`, in struct
declaration order. -/
inductive BoolField where
  | DeathCounter | DeskCam | GamePad | OrpaxMemorial | Uptime
  | OutfitPoll | SongRequests | BedTime | ChosenOne | CreepyTime
  | JibberJabbey | NameAThing | NoBeanie | RaidRoulette | Modlist
  | GameFound | OnCall | PauseableGame | YTGameInTitle
deriving DecidableEq

/-- Model of the second variant's `getBool` (lines 659-662). -/
def getBool (c : config) : BoolField → Bool
  | .DeathCounter => c.DeathCounter
  | .DeskCam => c.DeskCam
  | .GamePad => c.GamePad
  | .OrpaxMemorial => c.OrpaxMemorial
  | .Uptime => c.Uptime
  | .OutfitPoll => c.OutfitPoll
  | .SongRequests => c.SongRequests
  | .BedTime => c.BedTime
  | .ChosenOne => c.ChosenOne
  | .CreepyTime => c.CreepyTime
  | .JibberJabbey => c.JibberJabbey
  | .NameAThing => c.NameAThing
  | .NoBeanie => c.NoBeanie
  | .RaidRoulette => c.RaidRoulette
  | .Modlist => c.Modlist
  | .GameFound => c.GameFound
  | .OnCall => c.OnCall
  | .PauseableGame => c.PauseableGame
  | .YTGameInTitle => c.YTGameInTitle

/-- Reflective write of a boolean field by name. -/
def setBool (c : config) (f : BoolField) (v : Bool) : config :=
  match f with
  | .DeathCounter => { c with DeathCounter := v }
  | .DeskCam => { c with DeskCam := v }
  | .GamePad => { c with GamePad := v }
  | .OrpaxMemorial => { c with OrpaxMemorial := v }
  | .Uptime => { c with Uptime := v }
  | .OutfitPoll => { c with OutfitPoll := v }
  | .SongRequests => { c with SongRequests := v }
  | .BedTime => { c with BedTime := v }
  | .ChosenOne => { c with ChosenOne := v }
  | .CreepyTime => { c with CreepyTime := v }
  | .JibberJabbey => { c with JibberJabbey := v }
  | .NameAThing => { c with NameAThing := v }
  | .NoBeanie => { c with NoBeanie := v }
  | .RaidRoulette => { c with RaidRoulette := v }
  | .Modlist => { c with Modlist := v }
  | .GameFound => { c with GameFound := v }
  | .OnCall => { c with OnCall := v }
  | .PauseableGame => { c with PauseableGame := v }
  | .YTGameInTitle => { c with YTGameInTitle := v }

/-- Model of the second variant's `resolveBool` (lines 664-669). -/
def resolveBool (a b : config) (field : BoolField) : Bool :=
  if getBool newConfig field then getBool a field && getBool b field
  else getBool a field || getBool b field

/-- All boolean fields in struct order, as enumerated by the reflection
loop of the second variant's `mergeConfigs` (lines 771-786). -/
def boolsToResolve : List BoolField :=
  [.DeathCounter, .DeskCam, .GamePad, .OrpaxMemorial, .Uptime,
   .OutfitPoll, .SongRequests, .BedTime, .ChosenOne, .CreepyTime,
   .JibberJabbey, .NameAThing, .NoBeanie, .RaidRoulette, .Modlist,
   .GameFound, .OnCall, .PauseableGame, .YTGameInTitle]

/-- The boolean-resolution loop (lines 782-786). -/
def resolveAllBools (o n : config) : config :=
  boolsToResolve.foldl (fun acc f => setBool acc f (resolveBool acc n f)) o

/-- Decodable fields of the second variant's struct (every field carries
a json tag). -/
structure DecodedFields where
  Include : Option String := none
  StreamTags : Option (List String) := none
  TitleSuffix : Option String := none
  VTuberSoftware : Option String := none
  VNyanOutfit : Option String := none
  DeathCounter : Option Bool := none
  DeskCam : Option Bool := none
  GamePad : Option Bool := none
  OrpaxMemorial : Option Bool := none
  PandaSign : Option String := none
  Uptime : Option Bool := none
  OutfitPoll : Option Bool := none
  SongRequests : Option Bool := none
  BambooRequestCost : Option Int := none
  BedTime : Option Bool := none
  ChosenOne : Option Bool := none
  CreepyTime : Option Bool := none
  JibberJabbey : Option Bool := none
  LPGameCost : Option Int := none
  LPTalkingCost : Option Int := none
  NameAThing : Option Bool := none
  NoBeanie : Option Bool := none
  RaidRoulette : Option Bool := none
  Modlist : Option Bool := none
  NotifyInterval : Option Int := none
  EndHour : Option Int := none
  EndMinute : Option Int := none
  GameFound : Option Bool := none
  GameName : Option String := none
  SanitizedGameName : Option String := none
  OnCall : Option Bool := none
  PauseableGame : Option Bool := none
  YTGameInTitle : Option Bool := none
deriving DecidableEq

/-- Effect of `jsonParser.Decode(&c)` on a present file (second
variant): present well-typed fields replace, the rest keep `c`'s value. -/
def applyDecoded (p : DecodedFields) (c : config) : config :=
  { Include := p.Include.getD c.Include
    StreamTags := p.StreamTags.getD c.StreamTags
    TitleSuffix := p.TitleSuffix.getD c.TitleSuffix
    VTuberSoftware := p.VTuberSoftware.getD c.VTuberSoftware
    VNyanOutfit := p.VNyanOutfit.getD c.VNyanOutfit
    DeathCounter := p.DeathCounter.getD c.DeathCounter
    DeskCam := p.DeskCam.getD c.DeskCam
    GamePad := p.GamePad.getD c.GamePad
    OrpaxMemorial := p.OrpaxMemorial.getD c.OrpaxMemorial
    PandaSign := p.PandaSign.getD c.PandaSign
    Uptime := p.Uptime.getD c.Uptime
    OutfitPoll := p.OutfitPoll.getD c.OutfitPoll
    SongRequests := p.SongRequests.getD c.SongRequests
    BambooRequestCost := p.BambooRequestCost.getD c.BambooRequestCost
    BedTime := p.BedTime.getD c.BedTime
    ChosenOne := p.ChosenOne.getD c.ChosenOne
    CreepyTime := p.CreepyTime.getD c.CreepyTime
    JibberJabbey := p.JibberJabbey.getD c.JibberJabbey
    LPGameCost := p.LPGameCost.getD c.LPGameCost
    LPTalkingCost := p.LPTalkingCost.getD c.LPTalkingCost
    NameAThing := p.NameAThing.getD c.NameAThing
    NoBeanie := p.NoBeanie.getD c.NoBeanie
    RaidRoulette := p.RaidRoulette.getD c.RaidRoulette
    Modlist := p.Modlist.getD c.Modlist
    NotifyInterval := p.NotifyInterval.getD c.NotifyInterval
    EndHour := p.EndHour.getD c.EndHour
    EndMinute := p.EndMinute.getD c.EndMinute
    GameFound := p.GameFound.getD c.GameFound
    GameName := p.GameName.getD c.GameName
    SanitizedGameName := p.SanitizedGameName.getD c.SanitizedGameName
    OnCall := p.OnCall.getD c.OnCall
    PauseableGame := p.PauseableGame.getD c.PauseableGame
    YTGameInTitle := p.YTGameInTitle.getD c.YTGameInTitle }

/-- The `DecodedFields` value of a syntactically malformed byte stream:
nothing is assigned. -/
def malformedDecode : DecodedFields := {}

/-- Model of the second variant's `readFromFile` (lines 671-683),
identical in behavior to the first variant's. -/
def readFromFile (env : String → Option DecodedFields) (f : String) : config :=
  match env f with
  | none => { newConfig with GameFound := false }
  | some p => applyDecoded p { newConfig with GameFound := true }

/-- The record produced for an absent source. -/
def absentConfig : config := { newConfig with GameFound := false }

/-- Tag merge, lines 720-722. -/
def mergeTags (o n : config) : config :=
  { o with StreamTags := removeDuplicateStr (o.StreamTags ++ n.StreamTags) }

/-- Lines 743-749. -/
def mergeVTuber (o n : config) : config :=
  if n.VTuberSoftware ≠ "" then
    (if validVTuberSoftware n.VTuberSoftware then
      { o with VTuberSoftware := n.VTuberSoftware }
    else o)
  else o

/-- Lines 751-753. -/
def mergeTitle (o n : config) : config :=
  if n.TitleSuffix ≠ "" then { o with TitleSuffix := n.TitleSuffix } else o

/-- Lines 755-757. -/
def mergeNotify (o n : config) : config :=
  if n.NotifyInterval < o.NotifyInterval then
    { o with NotifyInterval := n.NotifyInterval }
  else o

/-- Lines 759-761. -/
def mergePanda (o n : config) : config :=
  if n.PandaSign ≠ "default" then { o with PandaSign := n.PandaSign } else o

/-- Lines 763-765. -/
def mergeEndHour (o n : config) : config :=
  if n.EndHour ≠ 0 then { o with EndHour := n.EndHour } else o

/-- Lines 767-769. -/
def mergeEndMinute (o n : config) : config :=
  if n.EndMinute ≠ 0 then { o with EndMinute := n.EndMinute } else o

/-- Lines 789-791. -/
def mergeOutfit (o n : config) : config :=
  if n.VNyanOutfit ≠ "" then { o with VNyanOutfit := n.VNyanOutfit } else o

/-- Lines 795-797. -/
def mergeLPGame (o n : config) : config :=
  if n.LPGameCost ≠ defaultLPGameCost then { o with LPGameCost := n.LPGameCost } else o

/-- Lines 800-802. -/
def mergeLPTalking (o n : config) : config :=
  if n.LPTalkingCost ≠ defaultLPTalkingCost then
    { o with LPTalkingCost := n.LPTalkingCost }
  else o

/-- Lines 804-808: `BambooRequestCost` is max-wins. -/
def mergeBamboo (o n : config) : config :=
  if o.BambooRequestCost < n.BambooRequestCost then
    { o with BambooRequestCost := n.BambooRequestCost }
  else o

/-- Everything the second variant's `mergeConfigs` does after the
include block, in source order (lines 743-808). -/
def mergeRest (o n : config) : config :=
  let o := mergeVTuber o n
  let o := mergeTitle o n
  let o := mergeNotify o n
  let o := mergePanda o n
  let o := mergeEndHour o n
  let o := mergeEndMinute o n
  let o := resolveAllBools o n
  let o := mergeOutfit o n
  let o := mergeLPGame o n
  let o := mergeLPTalking o n
  mergeBamboo o n

/-- Model of the second variant's `mergeConfigs` (lines 718-811): tag
merge first, then the include block — which records `includeFile` as
seen *before* reading and recursing (line 731 precedes line 732) — then
the straight-line rest. -/
def mergeConfigs (env : String → Option DecodedFields) (root : String) :
    Nat → List String → config → config → Option (config × List String)
  | 0, _, _, _ => none
  | fuel + 1, seen, o, n =>
    let o1 := mergeTags o n
    let step :=
      if n.Include ≠ "" then
        let includeFile := root ++ "includes\\" ++ n.Include ++ ".json"
        if includeFile ∉ seen then
          let seen1 := seen.insert includeFile
          let i := readFromFile env includeFile
          if i.GameFound then mergeConfigs env root fuel seen1 o1 i
          else some (o1, seen1)
        else some (o1, seen)
      else some (o1, seen)
    match step with
    | none => none
    | some (o2, seen2) => some (mergeRest o2 n, seen2)

/-- The second variant's layer pipeline (`main`, lines 1027-1059). -/
def foldLayers (env : String → Option DecodedFields) (root : String) (fuel : Nat) :
    List String → config → List config → Option (config × List String)
  | seen, acc, [] => some (acc, seen)
  | seen, acc, l :: ls =>
    match mergeConfigs env root fuel seen acc l with
    | none => none
    | some (acc2, seen2) => foldLayers env root fuel seen2 acc2 ls

/-- Steps 1-3 of the second variant's `applyOverrides` (lines 813-868);
the `"None"` case of the switch does nothing. -/
def applyOverridesPre (c : config) : config :=
  let c1 := { c with Include := "" }
  let c2 :=
    if validVTuberSoftware c1.VTuberSoftware then c1
    else { c1 with VTuberSoftware := defaultVTuberSoftware }
  match c2.VTuberSoftware with
  | "Veadotube" =>
    { c2 with
      StreamTags := removeDuplicateStr (["VTuber", "RedPanda", "ENVTuber"] ++ c2.StreamTags)
      OutfitPoll := false
      VNyanOutfit := ""
      NoBeanie := false }
  | "VTS" =>
    { c2 with
      StreamTags := removeDuplicateStr (["VTuber", "RedPanda", "Furry", "ENVTuber"] ++ c2.StreamTags)
      OutfitPoll := false
      VNyanOutfit := ""
      NoBeanie := false }
  | "VNyan" =>
    { c2 with
      StreamTags := removeDuplicateStr (["VTuber", "RedPanda", "Furry", "ENVTuber"] ++ c2.StreamTags)
      OutfitPoll := if c2.VNyanOutfit ≠ "" then false else c2.OutfitPoll
      NoBeanie := false }
  | _ => c2

/-- The list-length cap (lines 870-876). -/
def capTags (c : config) : config :=
  if 10 < c.StreamTags.length then { c with StreamTags := c.StreamTags.take 10 } else c

/-- The on-call override (lines 881-887). -/
def onCallStep (onCallFlag : Bool) (c : config) : config :=
  if onCallFlag || c.OnCall then
    { c with OnCall := true, BedTime := false, CreepyTime := false, RaidRoulette := false }
  else c

/-- Model of the second variant's `applyOverrides` (lines 813-890):
mode pass, cap, `GameName` assignment from the `--game` flag
(line 879), then the on-call override. -/
def applyOverrides (gameFlag : String) (onCallFlag : Bool) (c : config) : config :=
  onCallStep onCallFlag { capTags (applyOverridesPre c) with GameName := gameFlag }

/-- The environment in which no config file exists. -/
def envNone : String → Option DecodedFields := fun _ => none

/-- The include graph in which file A includes B and file B includes A,
for the second variant. -/
def decA : DecodedFields := { Include := some "B" }

def decB : DecodedFields := { Include := some "A" }

def envCyc : String → Option DecodedFields := fun s =>
  if s = "includes\\A.json" then some decA
  else if s = "includes\\B.json" then some decB
  else none

end BotV2

namespace Model

/-- The `config` struct of `modelconfig.go` (lines 40-70), with Go zero
values as field defaults. -/
@[ext] structure config where
  Include : String := ""
  ConfigFound : Bool := false
  ModelFileName : String := ""
  Software : String := ""
  AnvilDrop : Bool := false
  ASCIIRed : Bool := false
  Bonk : Bool := false
  Boop : Bool := false
  Chaos : Bool := false
  Feets : Bool := false
  Fisheye : Bool := false
  Headpats : Bool := false
  NoGlasses : Bool := false
  NuggiesForRed : Bool := false
  PeltThePanda : Bool := false
  PieDrop : Bool := false
  PostItRed : Bool := false
  RedInABox : Bool := false
  RentThisHat : Bool := false
  SpinThePanda : Bool := false
  SprayBottle : Bool := false
  SuspiciousRed : Bool := false
  SwolePanda : Bool := false
  Tail : Bool := false
  TimeWarpScan : Bool := false
  ToughLove : Bool := false
deriving DecidableEq

/-- The boolean-typed fields of the model config, in struct declaration
order (`ConfigFound` first, then the redeems). -/
inductive BoolField where
  | ConfigFound
  | AnvilDrop | ASCIIRed | Bonk | Boop | Chaos | Feets | Fisheye | Headpats
  | NoGlasses | NuggiesForRed | PeltThePanda | PieDrop | PostItRed | RedInABox
  | RentThisHat | SpinThePanda | SprayBottle | SuspiciousRed | SwolePanda
  | Tail | TimeWarpScan | ToughLove
deriving DecidableEq

/-- Model of `getBool` from `modelconfig.go` (lines 103-106). -/
def getBool (c : config) : BoolField → Bool
  | .ConfigFound => c.ConfigFound
  | .AnvilDrop => c.AnvilDrop
  | .ASCIIRed => c.ASCIIRed
  | .Bonk => c.Bonk
  | .Boop => c.Boop
  | .Chaos => c.Chaos
  | .Feets => c.Feets
  | .Fisheye => c.Fisheye
  | .Headpats => c.Headpats
  | .NoGlasses => c.NoGlasses
  | .NuggiesForRed => c.NuggiesForRed
  | .PeltThePanda => c.PeltThePanda
  | .PieDrop => c.PieDrop
  | .PostItRed => c.PostItRed
  | .RedInABox => c.RedInABox
  | .RentThisHat => c.RentThisHat
  | .SpinThePanda => c.SpinThePanda
  | .SprayBottle => c.SprayBottle
  | .SuspiciousRed => c.SuspiciousRed
  | .SwolePanda => c.SwolePanda
  | .Tail => c.Tail
  | .TimeWarpScan => c.TimeWarpScan
  | .ToughLove => c.ToughLove

/-- Reflective write of a boolean field by name. -/
def setBool (c : config) (f : BoolField) (v : Bool) : config :=
  match f with
  | .ConfigFound => { c with ConfigFound := v }
  | .AnvilDrop => { c with AnvilDrop := v }
  | .ASCIIRed => { c with ASCIIRed := v }
  | .Bonk => { c with Bonk := v }
  | .Boop => { c with Boop := v }
  | .Chaos => { c with Chaos := v }
  | .Feets => { c with Feets := v }
  | .Fisheye => { c with Fisheye := v }
  | .Headpats => { c with Headpats := v }
  | .NoGlasses => { c with NoGlasses := v }
  | .NuggiesForRed => { c with NuggiesForRed := v }
  | .PeltThePanda => { c with PeltThePanda := v }
  | .PieDrop => { c with PieDrop := v }
  | .PostItRed => { c with PostItRed := v }
  | .RedInABox => { c with RedInABox := v }
  | .RentThisHat => { c with RentThisHat := v }
  | .SpinThePanda => { c with SpinThePanda := v }
  | .SprayBottle => { c with SprayBottle := v }
  | .SuspiciousRed => { c with SuspiciousRed := v }
  | .SwolePanda => { c with SwolePanda := v }
  | .Tail => { c with Tail := v }
  | .TimeWarpScan => { c with TimeWarpScan := v }
  | .ToughLove => { c with ToughLove := v }

/-- All boolean fields in struct order, as enumerated by the reflection
loops of `modelconfig.go`. -/
def allBools : List BoolField :=
  [.ConfigFound,
   .AnvilDrop, .ASCIIRed, .Bonk, .Boop, .Chaos, .Feets, .Fisheye, .Headpats,
   .NoGlasses, .NuggiesForRed, .PeltThePanda, .PieDrop, .PostItRed, .RedInABox,
   .RentThisHat, .SpinThePanda, .SprayBottle, .SuspiciousRed, .SwolePanda,
   .Tail, .TimeWarpScan, .ToughLove]

/-- The `controlBools` exclusion list of `newConfig()` (lines 79-81). -/
def controlBools : List BoolField := [.ConfigFound]

/-- The boolean fields `newConfig()` flips to `true`: every boolean
field not in `controlBools`, in struct order (lines 86-92). -/
def nonControlBools : List BoolField := allBools.filter (fun f => f ∉ controlBools)

/-- Model of `newConfig()` from `modelconfig.go` (lines 72-101): start
from the zero-value struct and set every non-control boolean to `true`. -/
def newConfig : config :=
  nonControlBools.foldl (fun acc f => setBool acc f true) {}

/-- Model of `resolveBool` from `modelconfig.go` (lines 108-113):
identical resolution rule, driven by the model defaults. -/
def resolveBool (a b : config) (field : BoolField) : Bool :=
  if getBool newConfig field then getBool a field && getBool b field
  else getBool a field || getBool b field

/-- The disable-everything loop of `applyOverrides` (lines 203-220):
every boolean field, `ConfigFound` included, is set to `false`. -/
def setAllBoolsFalse (c : config) : config :=
  allBools.foldl (fun acc f => setBool acc f false) c

/-- Model of `applyOverrides` from `modelconfig.go` (lines 197-223):
clear the include reference, and when no config was found disable every
boolean field. -/
def applyOverrides (c : config) : config :=
  let c1 := { c with Include := "" }
  if ¬c1.ConfigFound then setAllBoolsFalse c1 else c1

end Model

section FoldSet

/-!
Generic facts about the reflection-driven boolean-resolution loop shared
by all three programs: a left fold that, for each field name `g` of a
list, overwrites field `g` of the accumulator with a value computed from
the accumulator's own field `g` (and fixed context).  `getB`/`setB` are
the reflective field access and update, `res` the per-field resolution.
-/

variable {γ φ : Type}
variable (getB : γ → φ → Bool) (setB : γ → φ → Bool → γ) (res : γ → φ → Bool)

/-- Projections untouched by `setB` pass through the loop unchanged. -/
theorem foldSet_proj {α : Type} (p : γ → α) (hp : ∀ c g v, p (setB c g v) = p c) :
    ∀ (L : List φ) (o : γ), p (L.foldl (fun acc g => setB acc g (res acc g)) o) = p o := by
  intro L
  induction L with
  | nil => intro o; rfl
  | cons g L ih => intro o; rw [List.foldl_cons, ih, hp]

/-- The loop is a simultaneous pointwise update: provided each field is
listed at most once, `setB` reads back what was written, `setB` of one
field does not disturb another, and `res` reads only the field it
resolves, the final value of a listed field `f` is `res o f` computed
from the original accumulator. -/
theorem foldSet_getB [DecidableEq φ]
    (h1 : ∀ c g v, getB (setB c g v) g = v)
    (h2 : ∀ c g v f, f ≠ g → getB (setB c g v) f = getB c f)
    (h3 : ∀ c c' g, getB c g = getB c' g → res c g = res c' g) :
    ∀ (L : List φ), L.Nodup → ∀ (o : γ) (f : φ),
      getB (L.foldl (fun acc g => setB acc g (res acc g)) o) f
        = if f ∈ L then res o f else getB o f := by
  intro L
  induction L with
  | nil => intro _ o f; simp
  | cons g L ih =>
    intro hnd o f
    rw [List.foldl_cons, ih hnd.of_cons]
    by_cases hfL : f ∈ L
    · have hfg : f ≠ g := by
        rintro rfl
        exact (List.nodup_cons.mp hnd).1 hfL
      rw [if_pos hfL, if_pos (List.mem_cons_of_mem g hfL)]
      exact h3 _ _ _ (h2 _ _ _ _ hfg)
    · rw [if_neg hfL]
      by_cases hfg : f = g
      · subst hfg
        rw [h1, if_pos (List.mem_cons_self f L)]
      · rw [h2 _ _ _ _ hfg, if_neg (by simp [hfg, hfL])]

/-- If every write of the loop writes back the value the field already
holds, the loop is the identity. -/
theorem foldSet_id (h : ∀ (c : γ) (g : φ), setB c g (res c g) = c) :
    ∀ (L : List φ) (o : γ), L.foldl (fun acc g => setB acc g (res acc g)) o = o := by
  intro L
  induction L with
  | nil => intro o; rfl
  | cons g L ih => intro o; rw [List.foldl_cons, h, ih]

end FoldSet

/-- Elements of the dedup output: the space-stripped input elements not
already in the `allKeys` set. -/
theorem mem_removeDuplicateStrAux (seen l : List String) (x : String) :
    x ∈ removeDuplicateStrAux seen l ↔ x ∈ l.map stripSpaces ∧ x ∉ seen := by
  induction l generalizing seen with
  | nil => simp [removeDuplicateStrAux]
  | cons y l ih =>
    simp only [removeDuplicateStrAux, List.map_cons]
    by_cases h : stripSpaces y ∈ seen
    · rw [if_pos h, ih]
      constructor
      · rintro ⟨hx, hns⟩
        exact ⟨List.mem_cons_of_mem _ hx, hns⟩
      · rintro ⟨hm, hns⟩
        rcases List.mem_cons.mp hm with rfl | hm2
        · exact absurd h hns
        · exact ⟨hm2, hns⟩
    · rw [if_neg h]
      constructor
      · intro hx
        rcases List.mem_cons.mp hx with rfl | hx2
        · exact ⟨List.mem_cons_self _ _, h⟩
        · obtain ⟨hm, hns⟩ := (ih _).mp hx2
          exact ⟨List.mem_cons_of_mem _ hm,
            fun hc => hns (List.mem_cons_of_mem _ hc)⟩
      · rintro ⟨hm, hns⟩
        rcases List.mem_cons.mp hm with rfl | hm2
        · exact List.mem_cons_self _ _
        · by_cases hxy : x = stripSpaces y
          · subst hxy; exact List.mem_cons_self _ _
          · refine List.mem_cons_of_mem _ ((ih _).mpr ⟨hm2, ?_⟩)
            intro hc
            rcases List.mem_cons.mp hc with h1 | h1
            · exact hxy h1
            · exact hns h1

/-- The dedup output lists no element twice. -/
theorem nodup_removeDuplicateStrAux (seen l : List String) :
    (removeDuplicateStrAux seen l).Nodup := by
  induction l generalizing seen with
  | nil => exact List.nodup_nil
  | cons y l ih =>
    simp only [removeDuplicateStrAux]
    by_cases h : stripSpaces y ∈ seen
    · rw [if_pos h]; exact ih seen
    · rw [if_neg h]
      refine List.nodup_cons.mpr ⟨?_, ih _⟩
      intro hc
      exact ((mem_removeDuplicateStrAux _ _ _).mp hc).2 (List.mem_cons_self _ _)

/-- The dedup output preserves first-seen order: it is a sublist of the
space-stripped input. -/
theorem removeDuplicateStrAux_sublist (seen l : List String) :
    List.Sublist (removeDuplicateStrAux seen l) (l.map stripSpaces) := by
  induction l generalizing seen with
  | nil => simp [removeDuplicateStrAux]
  | cons y l ih =>
    simp only [removeDuplicateStrAux, List.map_cons]
    by_cases h : stripSpaces y ∈ seen
    · rw [if_pos h]; exact (ih seen).cons _
    · rw [if_neg h]; exact (ih _).cons₂ _

/-- How the dedup core distributes over append. -/
theorem removeDuplicateStrAux_append (seen l1 l2 : List String) :
    removeDuplicateStrAux seen (l1 ++ l2)
      = removeDuplicateStrAux seen l1
        ++ removeDuplicateStrAux (seenFold seen l1) l2 := by
  induction l1 generalizing seen with
  | nil => rfl
  | cons y l ih =>
    simp only [List.cons_append, removeDuplicateStrAux, seenFold, List.append_eq]
    by_cases h : stripSpaces y ∈ seen
    · rw [if_pos h, if_pos h, ih, if_pos h]
    · rw [if_neg h, if_neg h, ih, List.cons_append, if_neg h]

theorem subset_seenFold (l : List String) :
    ∀ (seen : List String) (x : String), x ∈ seen → x ∈ seenFold seen l := by
  induction l with
  | nil => intro seen x hx; exact hx
  | cons y l ih =>
    intro seen x hx
    simp only [seenFold]
    by_cases h : stripSpaces y ∈ seen
    · rw [if_pos h]; exact ih seen x hx
    · rw [if_neg h]; exact ih _ x (List.mem_cons_of_mem _ hx)

theorem mem_seenFold_of_mem (l : List String) :
    ∀ (seen : List String) (x : String), x ∈ l → stripSpaces x ∈ seenFold seen l := by
  induction l with
  | nil => intro _ x hx; exact absurd hx (List.not_mem_nil x)
  | cons y l ih =>
    intro seen x hx
    rcases List.mem_cons.mp hx with rfl | hx
    · simp only [seenFold]
      by_cases h : stripSpaces x ∈ seen
      · rw [if_pos h]; exact subset_seenFold l seen _ h
      · rw [if_neg h]; exact subset_seenFold l _ _ (List.mem_cons_self _ _)
    · simp only [seenFold]; exact ih _ x hx

/-- A list every element of which is already recorded dedups to nothing. -/
theorem removeDuplicateStrAux_eq_nil (seen l : List String)
    (h : ∀ x ∈ l, stripSpaces x ∈ seen) : removeDuplicateStrAux seen l = [] := by
  induction l with
  | nil => rfl
  | cons y l ih =>
    simp only [removeDuplicateStrAux]
    rw [if_pos (h y (List.mem_cons_self _ _))]
    exact ih (fun x hx => h x (List.mem_cons_of_mem _ hx))

/-- Merging a tag list with itself dedups to the same result as the list
alone. -/
theorem removeDuplicateStr_append_self (l : List String) :
    removeDuplicateStr (l ++ l) = removeDuplicateStr l := by
  unfold removeDuplicateStr
  rw [removeDuplicateStrAux_append,
    removeDuplicateStrAux_eq_nil (seenFold [] l) l
      (fun x hx => mem_seenFold_of_mem l [] x hx),
    List.append_nil]

theorem mem_removeDuplicateStr (l : List String) (x : String) :
    x ∈ removeDuplicateStr l ↔ x ∈ l.map stripSpaces := by
  rw [removeDuplicateStr, mem_removeDuplicateStrAux]
  simp

theorem nodup_removeDuplicateStr (l : List String) :
    (removeDuplicateStr l).Nodup :=
  nodup_removeDuplicateStrAux [] l

theorem removeDuplicateStr_sublist (l : List String) :
    List.Sublist (removeDuplicateStr l) (l.map stripSpaces) :=
  removeDuplicateStrAux_sublist [] l

namespace BotV1

theorem getBool_setBool_same (c : config) (g : BoolField) (v : Bool) :
    getBool (setBool c g v) g = v := by
  cases g <;> rfl

/-- Writing one boolean field does not disturb another. -/
theorem getBool_setBool_ne (c : config) (g : BoolField) (v : Bool) (f : BoolField)
    (h : f ≠ g) : getBool (setBool c g v) f = getBool c f := by
  cases f <;> cases g <;> first | rfl | exact absurd rfl h

/-- `resolveBool a b f` reads only field `f` of its first argument. -/
theorem resolveBool_congr (c c' n : config) (g : BoolField)
    (h : getBool c g = getBool c' g) : resolveBool c n g = resolveBool c' n g := by
  simp only [resolveBool, h]

theorem boolsToResolve_nodup : boolsToResolve.Nodup := by decide

theorem mem_boolsToResolve (f : BoolField) : f ∈ boolsToResolve := by
  cases f <;> decide

/-- The boolean-resolution loop is the simultaneous pointwise update. -/
theorem getBool_resolveAllBools (o n : config) (f : BoolField) :
    getBool (resolveAllBools o n) f = resolveBool o n f := by
  have h := foldSet_getB getBool setBool (fun acc g => resolveBool acc n g)
    getBool_setBool_same getBool_setBool_ne
    (fun c c' g hg => resolveBool_congr c c' n g hg)
    boolsToResolve boolsToResolve_nodup o f
  exact h.trans (if_pos (mem_boolsToResolve f))

theorem resolveAllBools_StreamTags (o n : config) :
    (resolveAllBools o n).StreamTags = o.StreamTags :=
  foldSet_proj setBool (fun acc g => resolveBool acc n g) (fun c => c.StreamTags)
    (fun c g v => by cases g <;> rfl) boolsToResolve o

theorem resolveAllBools_LPGameCost (o n : config) :
    (resolveAllBools o n).LPGameCost = o.LPGameCost :=
  foldSet_proj setBool (fun acc g => resolveBool acc n g) (fun c => c.LPGameCost)
    (fun c g v => by cases g <;> rfl) boolsToResolve o

theorem resolveAllBools_LPTalkingCost (o n : config) :
    (resolveAllBools o n).LPTalkingCost = o.LPTalkingCost :=
  foldSet_proj setBool (fun acc g => resolveBool acc n g) (fun c => c.LPTalkingCost)
    (fun c g v => by cases g <;> rfl) boolsToResolve o

theorem resolveAllBools_GameFound (o n : config) :
    (resolveAllBools o n).GameFound = (o.GameFound || n.GameFound) := by
  have h := getBool_resolveAllBools o n .GameFound
  simpa [getBool, resolveBool, newConfig] using h

theorem resolveAllBools_OnCall (o n : config) :
    (resolveAllBools o n).OnCall = (o.OnCall || n.OnCall) := by
  have h := getBool_resolveAllBools o n .OnCall
  simpa [getBool, resolveBool, newConfig] using h

theorem mergeCore_GameFound (o n : config) :
    (mergeCore o n).GameFound = (o.GameFound || n.GameFound) := by
  simp only [mergeCore, mergeLPTalking, mergeLPGame, mergeOutfit, mergeEndMinute,
    mergeEndHour, mergePanda, mergeNotify, mergeTitle, mergeVTuber, mergeTags,
    apply_ite (fun c : config => c.GameFound), ite_self, resolveAllBools_GameFound]

theorem mergeCore_OnCall (o n : config) :
    (mergeCore o n).OnCall = (o.OnCall || n.OnCall) := by
  simp only [mergeCore, mergeLPTalking, mergeLPGame, mergeOutfit, mergeEndMinute,
    mergeEndHour, mergePanda, mergeNotify, mergeTitle, mergeVTuber, mergeTags,
    apply_ite (fun c : config => c.OnCall), ite_self, resolveAllBools_OnCall]

theorem mergeCore_StreamTags (o n : config) :
    (mergeCore o n).StreamTags = removeDuplicateStr (o.StreamTags ++ n.StreamTags) := by
  simp only [mergeCore, mergeLPTalking, mergeLPGame, mergeOutfit, mergeEndMinute,
    mergeEndHour, mergePanda, mergeNotify, mergeTitle, mergeVTuber, mergeTags,
    apply_ite (fun c : config => c.StreamTags), ite_self, resolveAllBools_StreamTags]

theorem mergeCore_LPGameCost (o n : config) :
    (mergeCore o n).LPGameCost
      = if n.LPGameCost ≠ defaultLPGameCost then n.LPGameCost else o.LPGameCost := by
  simp only [mergeCore, mergeLPTalking, mergeLPGame, mergeOutfit, mergeEndMinute,
    mergeEndHour, mergePanda, mergeNotify, mergeTitle, mergeVTuber, mergeTags,
    apply_ite (fun c : config => c.LPGameCost), ite_self, resolveAllBools_LPGameCost]

theorem mergeCore_LPTalkingCost (o n : config) :
    (mergeCore o n).LPTalkingCost
      = if n.LPTalkingCost ≠ defaultLPTalkingCost then n.LPTalkingCost else o.LPTalkingCost := by
  simp only [mergeCore, mergeLPTalking, mergeLPGame, mergeOutfit, mergeEndMinute,
    mergeEndHour, mergePanda, mergeNotify, mergeTitle, mergeVTuber, mergeTags,
    apply_ite (fun c : config => c.LPTalkingCost), ite_self, resolveAllBools_LPTalkingCost]

/-- Folding the absent record resolves every boolean field to its
existing value. -/
theorem resolveBool_absent (o : config) (f : BoolField) :
    resolveBool o absentConfig f = getBool o f := by
  cases f <;> simp [resolveBool, getBool, newConfig, absentConfig]

theorem setBool_getBool_self (c : config) (f : BoolField) :
    setBool c f (getBool c f) = c := by
  cases f <;> rfl

theorem resolveAllBools_absent (o : config) : resolveAllBools o absentConfig = o :=
  foldSet_id setBool (fun acc g => resolveBool acc absentConfig g)
    (fun c g => by
      have h : setBool c g (resolveBool c absentConfig g) = c := by
        rw [resolveBool_absent]
        exact setBool_getBool_self c g
      exact h)
    boolsToResolve o

theorem mergeVTuber_absent (o : config) : mergeVTuber o absentConfig = o := rfl

theorem mergeTitle_absent (o : config) : mergeTitle o absentConfig = o := rfl

theorem mergeNotify_absent (o : config) (h : o.NotifyInterval ≤ 5) :
    mergeNotify o absentConfig = o := by
  unfold mergeNotify
  rw [if_neg (show ¬(absentConfig.NotifyInterval < o.NotifyInterval) by
    simp only [absentConfig, newConfig]
    omega)]

theorem mergePanda_absent (o : config) : mergePanda o absentConfig = o := rfl

theorem mergeEndHour_absent (o : config) : mergeEndHour o absentConfig = o := rfl

theorem mergeEndMinute_absent (o : config) : mergeEndMinute o absentConfig = o := rfl

theorem mergeOutfit_absent (o : config) : mergeOutfit o absentConfig = o := rfl

theorem mergeLPGame_absent (o : config) : mergeLPGame o absentConfig = o := rfl

theorem mergeLPTalking_absent (o : config) : mergeLPTalking o absentConfig = o := rfl

/-- The straight-line merge leaves an accumulator unchanged when folding
the absent record, provided the accumulator's tags are already in
deduplicated form and its `NotifyInterval` does not exceed the default. -/
theorem mergeCore_absent (o : config)
    (h1 : removeDuplicateStr o.StreamTags = o.StreamTags)
    (h2 : o.NotifyInterval ≤ 5) : mergeCore o absentConfig = o := by
  have ht : mergeTags o absentConfig = o := by
    unfold mergeTags
    rw [show absentConfig.StreamTags = [] from rfl, List.append_nil, h1]
  simp only [mergeCore]
  rw [ht, mergeVTuber_absent, mergeTitle_absent, mergeNotify_absent o h2,
    mergePanda_absent, mergeEndHour_absent, mergeEndMinute_absent,
    resolveAllBools_absent, mergeOutfit_absent, mergeLPGame_absent,
    mergeLPTalking_absent]

/-- A merge whose incoming record has an empty include reference is the
straight-line merge, regardless of the environment. -/
theorem mergeConfigs_no_include (env : String → Option DecodedFields) (root : String)
    (fuel : Nat) (seen : List String) (o n : config) (h : n.Include = "") :
    mergeConfigs env root (fuel + 1) seen o n = some (mergeCore o n, seen) := by
  simp [mergeConfigs, h]

/-- In the environment without config files a merge never recurses: the
result record is always the straight-line merge. -/
theorem mergeConfigs_envNone (root : String) (fuel : Nat) (seen : List String)
    (o n : config) :
    ∃ seen2, mergeConfigs envNone root (fuel + 1) seen o n = some (mergeCore o n, seen2) := by
  by_cases h : n.Include = ""
  · exact ⟨seen, mergeConfigs_no_include envNone root fuel seen o n h⟩
  · by_cases h2 : (root ++ "includes\\" ++ n.Include ++ ".json") ∈ seen
    · exact ⟨seen, by simp [mergeConfigs, h, h2]⟩
    · refine ⟨seen.insert (root ++ "includes\\" ++ n.Include ++ ".json"), ?_⟩
      simp [mergeConfigs, h, h2, readFromFile, envNone]

/-- Boolean fields whose straight-line merge is OR stay `true` through
the whole merge, include recursion and all. -/
theorem mergeConfigs_bool_or (env : String → Option DecodedFields) (root : String)
    (p : config → Bool) (hp : ∀ o n, p (mergeCore o n) = (p o || p n)) :
    ∀ (fuel : Nat) (seen : List String) (o n : config) (res : config × List String),
      mergeConfigs env root fuel seen o n = some res →
      (p o || p n) = true → p res.1 = true := by
  intro fuel
  induction fuel with
  | zero => intro seen o n res h _; exact absurd h (by simp [mergeConfigs])
  | succ fuel ih =>
    intro seen o n res h hG
    simp only [mergeConfigs] at h
    have hcore : p (mergeCore o n) = true := by rw [hp, hG]
    by_cases hInc : n.Include ≠ ""
    · rw [if_pos hInc] at h
      by_cases hSeen : (root ++ "includes\\" ++ n.Include ++ ".json") ∉ seen
      · rw [if_pos hSeen] at h
        by_cases hGF :
            (readFromFile env (root ++ "includes\\" ++ n.Include ++ ".json")).GameFound = true
        · rw [if_pos hGF] at h
          cases hm : mergeConfigs env root fuel seen (mergeCore o n)
              (readFromFile env (root ++ "includes\\" ++ n.Include ++ ".json")) with
          | none => rw [hm] at h; exact absurd h (by simp)
          | some r2 =>
            rw [hm] at h
            have hr2 : p r2.1 = true := ih seen (mergeCore o n) _ r2 hm (by rw [hcore]; rfl)
            obtain ⟨o2, seen2⟩ := r2
            simp only [Option.some.injEq] at h
            rw [← h]
            exact hr2
        · rw [if_neg hGF] at h
          simp only [Option.some.injEq] at h
          rw [← h]
          exact hcore
      · rw [if_neg hSeen] at h
        simp only [Option.some.injEq] at h
        rw [← h]
        exact hcore
    · rw [if_neg hInc] at h
      simp only [Option.some.injEq] at h
      rw [← h]
      exact hcore

/-- On the cyclic include graph, the first variant's merge exhausts any
amount of fuel: because an include file is recorded as seen only after
its recursive expansion returns, the seen set is still empty inside the
recursion and the cycle A - B - A re-expands forever. -/
theorem envCyc_diverges :
    ∀ (fuel : Nat) (o n : config), (n.Include = "A" ∨ n.Include = "B") →
      mergeConfigs envCyc "" fuel [] o n = none := by
  intro fuel
  induction fuel with
  | zero => intro o n _; rfl
  | succ fuel ih =>
    intro o n hn
    rcases hn with h | h
    · simp only [mergeConfigs]
      rw [if_pos (show n.Include ≠ "" by rw [h]; decide)]
      rw [if_pos (show ("" ++ "includes\\" ++ n.Include ++ ".json") ∉ ([] : List String) by
        simp)]
      rw [h]
      rw [if_pos (show (readFromFile envCyc
        ("" ++ "includes\\" ++ "A" ++ ".json")).GameFound = true from rfl)]
      rw [ih (mergeCore o n)
        (readFromFile envCyc ("" ++ "includes\\" ++ "A" ++ ".json")) (Or.inr rfl)]
    · simp only [mergeConfigs]
      rw [if_pos (show n.Include ≠ "" by rw [h]; decide)]
      rw [if_pos (show ("" ++ "includes\\" ++ n.Include ++ ".json") ∉ ([] : List String) by
        simp)]
      rw [h]
      rw [if_pos (show (readFromFile envCyc
        ("" ++ "includes\\" ++ "B" ++ ".json")).GameFound = true from rfl)]
      rw [ih (mergeCore o n)
        (readFromFile envCyc ("" ++ "includes\\" ++ "B" ++ ".json")) (Or.inl rfl)]

/-- The on-call override never touches the tag list. -/
theorem onCallStep_StreamTags (onc : Bool) (c : config) :
    (onCallStep onc c).StreamTags = c.StreamTags := by
  unfold onCallStep
  split <;> rfl

/-- The cap stage keeps exactly the first 10 tags (all of them when
there are no more than 10). -/
theorem capTags_StreamTags (c : config) :
    (capTags c).StreamTags = c.StreamTags.take 10 := by
  unfold capTags
  by_cases h : 10 < c.StreamTags.length
  · rw [if_pos h]
  · rw [if_neg h]
    exact (List.take_of_length_le (Nat.le_of_not_lt h)).symm

/-- Folding a concatenated layer list is the bind of the two folds. -/
theorem foldLayers_append (env : String → Option DecodedFields) (root : String)
    (fuel : Nat) :
    ∀ (l1 l2 : List config) (seen : List String) (acc : config),
      foldLayers env root fuel seen acc (l1 ++ l2)
        = (foldLayers env root fuel seen acc l1).bind
            (fun r => foldLayers env root fuel r.2 r.1 l2) := by
  intro l1
  induction l1 with
  | nil => intro l2 seen acc; rfl
  | cons l ls ih =>
    intro l2 seen acc
    simp only [List.cons_append, foldLayers]
    cases hm : mergeConfigs env root fuel seen acc l with
    | none => rfl
    | some r =>
      obtain ⟨acc2, seen2⟩ := r
      exact ih l2 seen2 acc2

/-- Layers that all satisfy a property `q` which makes the straight-line
merge preserve a projection `p` leave that projection of the
accumulator untouched (environment without include files). -/
theorem foldLayers_envNone_keep {α : Type} (root : String) (p : config → α)
    (q : config → Prop)
    (hstep : ∀ acc l, q l → p (mergeCore acc l) = p acc) :
    ∀ (layers : List config) (seen : List String) (acc : config),
      (∀ l ∈ layers, q l) →
      ∃ res, foldLayers envNone root 1 seen acc layers = some res ∧ p res.1 = p acc := by
  intro layers
  induction layers with
  | nil => intro seen acc _; exact ⟨(acc, seen), rfl, rfl⟩
  | cons l ls ih =>
    intro seen acc hall
    obtain ⟨seen2, hm⟩ := mergeConfigs_envNone root 0 seen acc l
    have hm1 : mergeConfigs envNone root 1 seen acc l
        = some (mergeCore acc l, seen2) := hm
    obtain ⟨res, hfold, hres⟩ :=
      ih seen2 (mergeCore acc l) (fun m hm2 => hall m (List.mem_cons_of_mem l hm2))
    refine ⟨res, ?_, by rw [hres, hstep acc l (hall l (List.mem_cons_self l ls))]⟩
    simp only [foldLayers]
    rw [hm1]
    exact hfold

/-- One distinguished layer pins the projection to a value `v` that the
straight-line merge yields from it regardless of the accumulator; all
other layers preserve the projection. -/
theorem foldLayers_envNone_one {α : Type} (root : String) (p : config → α)
    (q : config → Prop) (l : config) (v : α)
    (hstep : ∀ acc m, q m → p (mergeCore acc m) = p acc)
    (hval : ∀ acc, p (mergeCore acc l) = v)
    (pre post : List config) (seen : List String) (acc : config)
    (hpre : ∀ m ∈ pre, q m) (hpost : ∀ m ∈ post, q m) :
    ∃ res, foldLayers envNone root 1 seen acc (pre ++ l :: post) = some res
      ∧ p res.1 = v := by
  obtain ⟨r1, hf1, _⟩ := foldLayers_envNone_keep root p q hstep pre seen acc hpre
  obtain ⟨s2, hm⟩ := mergeConfigs_envNone root 0 r1.2 r1.1 l
  have hm1 : mergeConfigs envNone root 1 r1.2 r1.1 l
      = some (mergeCore r1.1 l, s2) := hm
  obtain ⟨res, hf2, hres⟩ :=
    foldLayers_envNone_keep root p q hstep post s2 (mergeCore r1.1 l) hpost
  refine ⟨res, ?_, by rw [hres, hval]⟩
  rw [foldLayers_append envNone root 1 pre (l :: post) seen acc, hf1,
    Option.some_bind]
  simp only [foldLayers]
  rw [hm1]
  exact hf2

end BotV1

namespace BotV2

theorem getBool_setBool_same2 (c : config) (g : BoolField) (v : Bool) :
    getBool (setBool c g v) g = v := by
  cases g <;> rfl

theorem getBool_setBool_ne2 (c : config) (g : BoolField) (v : Bool) (f : BoolField)
    (h : f ≠ g) : getBool (setBool c g v) f = getBool c f := by
  cases f <;> cases g <;> first | rfl | exact absurd rfl h

theorem resolveBool_congr2 (c c' n : config) (g : BoolField)
    (h : getBool c g = getBool c' g) : resolveBool c n g = resolveBool c' n g := by
  simp only [resolveBool, h]

theorem boolsToResolve_nodup2 : boolsToResolve.Nodup := by decide

theorem mem_boolsToResolve2 (f : BoolField) : f ∈ boolsToResolve := by
  cases f <;> decide

/-- The boolean-resolution loop is the simultaneous pointwise update. -/
theorem getBool_resolveAllBools2 (o n : config) (f : BoolField) :
    getBool (resolveAllBools o n) f = resolveBool o n f := by
  have h := foldSet_getB getBool setBool (fun acc g => resolveBool acc n g)
    getBool_setBool_same2 getBool_setBool_ne2
    (fun c c' g hg => resolveBool_congr2 c c' n g hg)
    boolsToResolve boolsToResolve_nodup2 o f
  exact h.trans (if_pos (mem_boolsToResolve2 f))

theorem resolveAllBools_StreamTags2 (o n : config) :
    (resolveAllBools o n).StreamTags = o.StreamTags :=
  foldSet_proj setBool (fun acc g => resolveBool acc n g) (fun c => c.StreamTags)
    (fun c g v => by cases g <;> rfl) boolsToResolve o

theorem resolveAllBools_LPGameCost2 (o n : config) :
    (resolveAllBools o n).LPGameCost = o.LPGameCost :=
  foldSet_proj setBool (fun acc g => resolveBool acc n g) (fun c => c.LPGameCost)
    (fun c g v => by cases g <;> rfl) boolsToResolve o

theorem resolveAllBools_LPTalkingCost2 (o n : config) :
    (resolveAllBools o n).LPTalkingCost = o.LPTalkingCost :=
  foldSet_proj setBool (fun acc g => resolveBool acc n g) (fun c => c.LPTalkingCost)
    (fun c g v => by cases g <;> rfl) boolsToResolve o

theorem resolveAllBools_GameFound2 (o n : config) :
    (resolveAllBools o n).GameFound = (o.GameFound || n.GameFound) := by
  have h := getBool_resolveAllBools2 o n .GameFound
  simpa [getBool, resolveBool, newConfig] using h

theorem resolveAllBools_OnCall2 (o n : config) :
    (resolveAllBools o n).OnCall = (o.OnCall || n.OnCall) := by
  have h := getBool_resolveAllBools2 o n .OnCall
  simpa [getBool, resolveBool, newConfig] using h

theorem mergeRest_GameFound (o n : config) :
    (mergeRest o n).GameFound = (o.GameFound || n.GameFound) := by
  simp only [mergeRest, mergeBamboo, mergeLPTalking, mergeLPGame, mergeOutfit,
    mergeEndMinute, mergeEndHour, mergePanda, mergeNotify, mergeTitle, mergeVTuber,
    apply_ite (fun c : config => c.GameFound), ite_self, resolveAllBools_GameFound2]

theorem mergeRest_OnCall (o n : config) :
    (mergeRest o n).OnCall = (o.OnCall || n.OnCall) := by
  simp only [mergeRest, mergeBamboo, mergeLPTalking, mergeLPGame, mergeOutfit,
    mergeEndMinute, mergeEndHour, mergePanda, mergeNotify, mergeTitle, mergeVTuber,
    apply_ite (fun c : config => c.OnCall), ite_self, resolveAllBools_OnCall2]

theorem mergeRest_StreamTags (o n : config) :
    (mergeRest o n).StreamTags = o.StreamTags := by
  simp only [mergeRest, mergeBamboo, mergeLPTalking, mergeLPGame, mergeOutfit,
    mergeEndMinute, mergeEndHour, mergePanda, mergeNotify, mergeTitle, mergeVTuber,
    apply_ite (fun c : config => c.StreamTags), ite_self, resolveAllBools_StreamTags2]

theorem mergeRest_LPGameCost (o n : config) :
    (mergeRest o n).LPGameCost
      = if n.LPGameCost ≠ defaultLPGameCost then n.LPGameCost else o.LPGameCost := by
  simp only [mergeRest, mergeBamboo, mergeLPTalking, mergeLPGame, mergeOutfit,
    mergeEndMinute, mergeEndHour, mergePanda, mergeNotify, mergeTitle, mergeVTuber,
    apply_ite (fun c : config => c.LPGameCost), ite_self, resolveAllBools_LPGameCost2]

theorem mergeRest_LPTalkingCost (o n : config) :
    (mergeRest o n).LPTalkingCost
      = if n.LPTalkingCost ≠ defaultLPTalkingCost then n.LPTalkingCost else o.LPTalkingCost := by
  simp only [mergeRest, mergeBamboo, mergeLPTalking, mergeLPGame, mergeOutfit,
    mergeEndMinute, mergeEndHour, mergePanda, mergeNotify, mergeTitle, mergeVTuber,
    apply_ite (fun c : config => c.LPTalkingCost), ite_self, resolveAllBools_LPTalkingCost2]

theorem mergeTags_GameFound (o n : config) : (mergeTags o n).GameFound = o.GameFound := rfl

theorem mergeTags_OnCall (o n : config) : (mergeTags o n).OnCall = o.OnCall := rfl

/-- A merge whose incoming record has an empty include reference does not
recurse, regardless of the environment. -/
theorem mergeConfigs_no_include2 (env : String → Option DecodedFields) (root : String)
    (fuel : Nat) (seen : List String) (o n : config) (h : n.Include = "") :
    mergeConfigs env root (fuel + 1) seen o n
      = some (mergeRest (mergeTags o n) n, seen) := by
  simp [mergeConfigs, h]

/-- In the environment without config files a merge never recurses. -/
theorem mergeConfigs_envNone2 (root : String) (fuel : Nat) (seen : List String)
    (o n : config) :
    ∃ seen2, mergeConfigs envNone root (fuel + 1) seen o n
      = some (mergeRest (mergeTags o n) n, seen2) := by
  by_cases h : n.Include = ""
  · exact ⟨seen, mergeConfigs_no_include2 envNone root fuel seen o n h⟩
  · by_cases h2 : (root ++ "includes\\" ++ n.Include ++ ".json") ∈ seen
    · exact ⟨seen, by simp [mergeConfigs, h, h2]⟩
    · refine ⟨seen.insert (root ++ "includes\\" ++ n.Include ++ ".json"), ?_⟩
      simp [mergeConfigs, h, h2, readFromFile, envNone]

/-- Boolean fields whose straight-line merge is OR stay `true` through
the whole merge, include recursion and all. -/
theorem mergeConfigs_bool_or2 (env : String → Option DecodedFields) (root : String)
    (p : config → Bool)
    (hrest : ∀ o n, p (mergeRest o n) = (p o || p n))
    (htags : ∀ o n, p (mergeTags o n) = p o) :
    ∀ (fuel : Nat) (seen : List String) (o n : config) (res : config × List String),
      mergeConfigs env root fuel seen o n = some res →
      (p o || p n) = true → p res.1 = true := by
  intro fuel
  induction fuel with
  | zero => intro seen o n res h _; exact absurd h (by simp [mergeConfigs])
  | succ fuel ih =>
    intro seen o n res h hG
    simp only [mergeConfigs] at h
    rcases Bool.or_eq_true_iff.mp hG with ho | hn
    · -- the accumulator already carries the flag
      have h1 : p (mergeTags o n) = true := by rw [htags, ho]
      by_cases hInc : n.Include ≠ ""
      · rw [if_pos hInc] at h
        by_cases hSeen : (root ++ "includes\\" ++ n.Include ++ ".json") ∉ seen
        · rw [if_pos hSeen] at h
          by_cases hGF :
              (readFromFile env (root ++ "includes\\" ++ n.Include ++ ".json")).GameFound = true
          · rw [if_pos hGF] at h
            cases hm : mergeConfigs env root fuel
                (seen.insert (root ++ "includes\\" ++ n.Include ++ ".json"))
                (mergeTags o n)
                (readFromFile env (root ++ "includes\\" ++ n.Include ++ ".json")) with
            | none => rw [hm] at h; exact absurd h (by simp)
            | some r2 =>
              rw [hm] at h
              have hr2 : p r2.1 = true :=
                ih _ (mergeTags o n) _ r2 hm (by rw [h1]; rfl)
              obtain ⟨o2, seen2⟩ := r2
              simp only [Option.some.injEq] at h
              rw [← h]
              simp only [hrest, hr2]
              rfl
          · rw [if_neg hGF] at h
            simp only [Option.some.injEq] at h
            rw [← h]
            simp only [hrest, h1]
            rfl
        · rw [if_neg hSeen] at h
          simp only [Option.some.injEq] at h
          rw [← h]
          simp only [hrest, h1]
          rfl
      · rw [if_neg hInc] at h
        simp only [Option.some.injEq] at h
        rw [← h]
        simp only [hrest, h1]
        rfl
    · -- the incoming record carries the flag: the final straight-line
      -- rest ORs it in whatever the include step produced
      have hfin : ∀ (o2 : config), p (mergeRest o2 n) = true := fun o2 => by
        rw [hrest, hn]
        simp
      by_cases hInc : n.Include ≠ ""
      · rw [if_pos hInc] at h
        by_cases hSeen : (root ++ "includes\\" ++ n.Include ++ ".json") ∉ seen
        · rw [if_pos hSeen] at h
          by_cases hGF :
              (readFromFile env (root ++ "includes\\" ++ n.Include ++ ".json")).GameFound = true
          · rw [if_pos hGF] at h
            cases hm : mergeConfigs env root fuel
                (seen.insert (root ++ "includes\\" ++ n.Include ++ ".json"))
                (mergeTags o n)
                (readFromFile env (root ++ "includes\\" ++ n.Include ++ ".json")) with
            | none => rw [hm] at h; exact absurd h (by simp)
            | some r2 =>
              rw [hm] at h
              obtain ⟨o2, seen2⟩ := r2
              simp only [Option.some.injEq] at h
              rw [← h]
              exact hfin o2
          · rw [if_neg hGF] at h
            simp only [Option.some.injEq] at h
            rw [← h]
            exact hfin _
        · rw [if_neg hSeen] at h
          simp only [Option.some.injEq] at h
          rw [← h]
          exact hfin _
      · rw [if_neg hInc] at h
        simp only [Option.some.injEq] at h
        rw [← h]
        exact hfin _

theorem mergeTags_LPGameCost (o n : config) :
    (mergeTags o n).LPGameCost = o.LPGameCost := rfl

theorem mergeTags_LPTalkingCost (o n : config) :
    (mergeTags o n).LPTalkingCost = o.LPTalkingCost := rfl

/-- The on-call override never touches the tag list. -/
theorem onCallStep_StreamTags2 (onc : Bool) (c : config) :
    (onCallStep onc c).StreamTags = c.StreamTags := by
  unfold onCallStep
  split <;> rfl

/-- The cap stage keeps exactly the first 10 tags. -/
theorem capTags_StreamTags2 (c : config) :
    (capTags c).StreamTags = c.StreamTags.take 10 := by
  unfold capTags
  by_cases h : 10 < c.StreamTags.length
  · rw [if_pos h]
  · rw [if_neg h]
    exact (List.take_of_length_le (Nat.le_of_not_lt h)).symm

/-- Folding a concatenated layer list is the bind of the two folds. -/
theorem foldLayers_append2 (env : String → Option DecodedFields) (root : String)
    (fuel : Nat) :
    ∀ (l1 l2 : List config) (seen : List String) (acc : config),
      foldLayers env root fuel seen acc (l1 ++ l2)
        = (foldLayers env root fuel seen acc l1).bind
            (fun r => foldLayers env root fuel r.2 r.1 l2) := by
  intro l1
  induction l1 with
  | nil => intro l2 seen acc; rfl
  | cons l ls ih =>
    intro l2 seen acc
    simp only [List.cons_append, foldLayers]
    cases hm : mergeConfigs env root fuel seen acc l with
    | none => rfl
    | some r =>
      obtain ⟨acc2, seen2⟩ := r
      exact ih l2 seen2 acc2

/-- Layers that all satisfy a property `q` which makes the straight-line
merge preserve a projection `p` leave that projection of the
accumulator untouched (environment without include files). -/
theorem foldLayers_envNone_keep2 {α : Type} (root : String) (p : config → α)
    (q : config → Prop)
    (hstep : ∀ acc l, q l → p (mergeRest (mergeTags acc l) l) = p acc) :
    ∀ (layers : List config) (seen : List String) (acc : config),
      (∀ l ∈ layers, q l) →
      ∃ res, foldLayers envNone root 1 seen acc layers = some res ∧ p res.1 = p acc := by
  intro layers
  induction layers with
  | nil => intro seen acc _; exact ⟨(acc, seen), rfl, rfl⟩
  | cons l ls ih =>
    intro seen acc hall
    obtain ⟨seen2, hm⟩ := mergeConfigs_envNone2 root 0 seen acc l
    have hm1 : mergeConfigs envNone root 1 seen acc l
        = some (mergeRest (mergeTags acc l) l, seen2) := hm
    obtain ⟨res, hfold, hres⟩ :=
      ih seen2 (mergeRest (mergeTags acc l) l)
        (fun m hm2 => hall m (List.mem_cons_of_mem l hm2))
    refine ⟨res, ?_, by rw [hres, hstep acc l (hall l (List.mem_cons_self l ls))]⟩
    simp only [foldLayers]
    rw [hm1]
    exact hfold

/-- One distinguished layer pins the projection to a value `v`; all
other layers preserve the projection. -/
theorem foldLayers_envNone_one2 {α : Type} (root : String) (p : config → α)
    (q : config → Prop) (l : config) (v : α)
    (hstep : ∀ acc m, q m → p (mergeRest (mergeTags acc m) m) = p acc)
    (hval : ∀ acc, p (mergeRest (mergeTags acc l) l) = v)
    (pre post : List config) (seen : List String) (acc : config)
    (hpre : ∀ m ∈ pre, q m) (hpost : ∀ m ∈ post, q m) :
    ∃ res, foldLayers envNone root 1 seen acc (pre ++ l :: post) = some res
      ∧ p res.1 = v := by
  obtain ⟨r1, hf1, _⟩ := foldLayers_envNone_keep2 root p q hstep pre seen acc hpre
  obtain ⟨s2, hm⟩ := mergeConfigs_envNone2 root 0 r1.2 r1.1 l
  have hm1 : mergeConfigs envNone root 1 r1.2 r1.1 l
      = some (mergeRest (mergeTags r1.1 l) l, s2) := hm
  obtain ⟨res, hf2, hres⟩ :=
    foldLayers_envNone_keep2 root p q hstep post s2 (mergeRest (mergeTags r1.1 l) l) hpost
  refine ⟨res, ?_, by rw [hres, hval]⟩
  rw [foldLayers_append2 envNone root 1 pre (l :: post) seen acc, hf1,
    Option.some_bind]
  simp only [foldLayers]
  rw [hm1]
  exact hf2

end BotV2

namespace Model

theorem getBool_setBool_sameM (c : config) (g : BoolField) (v : Bool) :
    getBool (setBool c g v) g = v := by
  cases g <;> rfl

theorem getBool_setBool_neM (c : config) (g : BoolField) (v : Bool) (f : BoolField)
    (h : f ≠ g) : getBool (setBool c g v) f = getBool c f := by
  cases f <;> cases g <;> first | rfl | exact absurd rfl h

theorem allBools_nodup : allBools.Nodup := by decide

theorem mem_allBools (f : BoolField) : f ∈ allBools := by cases f <;> decide

/-- After the disable-everything loop every boolean field reads `false`. -/
theorem getBool_setAllBoolsFalse (c : config) (f : BoolField) :
    getBool (setAllBoolsFalse c) f = false := by
  have h := foldSet_getB getBool setBool (fun _ _ => false)
    getBool_setBool_sameM getBool_setBool_neM (fun _ _ _ _ => rfl)
    allBools allBools_nodup c f
  exact h.trans (if_pos (mem_allBools f))

theorem setAllBoolsFalse_Include (c : config) :
    (setAllBoolsFalse c).Include = c.Include :=
  foldSet_proj setBool (fun _ _ => false) (fun c => c.Include)
    (fun c g v => by cases g <;> rfl) allBools c

end Model


/-!
Claim theorems.
-/

/-- C1: for every pair of records and every boolean field, the field
resolver combines the two values with logical AND when the field's
declared default in the zero-value record is `true` and with logical OR
when it is `false`; hence a default-true field is `false` whenever
either input has it `false`, and a default-false field is `true`
whenever either input has it `true`.  Stated for `resolveBool` of
`botconfig.go` (first variant) and of `modelconfig.go`. -/
theorem resolveBool_polarity :
    (∀ (a b : BotV1.config) (f : BotV1.BoolField),
      (BotV1.getBool BotV1.newConfig f = true →
        BotV1.resolveBool a b f = (BotV1.getBool a f && BotV1.getBool b f))
      ∧ (BotV1.getBool BotV1.newConfig f = false →
        BotV1.resolveBool a b f = (BotV1.getBool a f || BotV1.getBool b f))
      ∧ (BotV1.getBool BotV1.newConfig f = true →
          (BotV1.getBool a f = false ∨ BotV1.getBool b f = false) →
          BotV1.resolveBool a b f = false)
      ∧ (BotV1.getBool BotV1.newConfig f = false →
          (BotV1.getBool a f = true ∨ BotV1.getBool b f = true) →
          BotV1.resolveBool a b f = true))
    ∧ (∀ (a b : Model.config) (f : Model.BoolField),
      (Model.getBool Model.newConfig f = true →
        Model.resolveBool a b f = (Model.getBool a f && Model.getBool b f))
      ∧ (Model.getBool Model.newConfig f = false →
        Model.resolveBool a b f = (Model.getBool a f || Model.getBool b f))
      ∧ (Model.getBool Model.newConfig f = true →
          (Model.getBool a f = false ∨ Model.getBool b f = false) →
          Model.resolveBool a b f = false)
      ∧ (Model.getBool Model.newConfig f = false →
          (Model.getBool a f = true ∨ Model.getBool b f = true) →
          Model.resolveBool a b f = true)) := by
  constructor
  · intro a b f
    refine ⟨fun h => ?_, fun h => ?_, fun h hab => ?_, fun h hab => ?_⟩
    · simp [BotV1.resolveBool, h]
    · simp [BotV1.resolveBool, h]
    · rcases hab with h1 | h1 <;> simp [BotV1.resolveBool, h, h1]
    · rcases hab with h1 | h1 <;> simp [BotV1.resolveBool, h, h1]
  · intro a b f
    refine ⟨fun h => ?_, fun h => ?_, fun h hab => ?_, fun h hab => ?_⟩
    · simp [Model.resolveBool, h]
    · simp [Model.resolveBool, h]
    · rcases hab with h1 | h1 <;> simp [Model.resolveBool, h, h1]
    · rcases hab with h1 | h1 <;> simp [Model.resolveBool, h, h1]

/-- C1 witness: a default-true field (`ChosenOne`) with one input false
resolves to false; a default-false field (`GameFound`) with one input
true resolves to true; a default-true model redeem (`Bonk`) with one
input false resolves to false. -/
theorem resolveBool_polarity_witness :
    BotV1.resolveBool BotV1.newConfig { BotV1.newConfig with ChosenOne := false }
      BotV1.BoolField.ChosenOne = false
    ∧ BotV1.resolveBool BotV1.newConfig { BotV1.newConfig with GameFound := true }
      BotV1.BoolField.GameFound = true
    ∧ Model.resolveBool Model.newConfig { Model.newConfig with Bonk := false }
      Model.BoolField.Bonk = false :=
  ⟨(resolveBool_polarity.1 _ _ _).2.2.1 rfl (Or.inr rfl),
   (resolveBool_polarity.1 _ _ _).2.2.2 rfl (Or.inr rfl),
   (resolveBool_polarity.2 _ _ _).2.2.1 (by decide) (Or.inr rfl)⟩

/-- C2: on the include cycle A includes B, B includes A, the first
variant of `mergeConfigs` (botconfig.go lines 251-265) exhausts every
fuel bound — the Go code recurses forever — because the include file is
recorded in the seen set only after its recursive expansion returns, so
the key is still unseen inside the recursion.  The second variant
(lines 727-741), which records the key before expanding, terminates on
the same graph with fuel 3 and records each include file exactly once. -/
theorem includeCycle_seen_marking :
    (∀ fuel : Nat,
      BotV1.mergeConfigs BotV1.envCyc "" fuel []
        BotV1.newConfig { BotV1.newConfig with Include := "A" } = none)
    ∧ ((BotV2.mergeConfigs BotV2.envCyc "" 3 []
        BotV2.newConfig { BotV2.newConfig with Include := "A" }).map Prod.snd
        = some ["includes\\B.json", "includes\\A.json"]) := by
  constructor
  · intro fuel
    exact BotV1.envCyc_diverges fuel _ _ (Or.inl rfl)
  · rfl

/-- C3 counterexample: the zero-value record is not a two-sided identity
of the merge for every accumulator.  Folding it into an accumulator
whose tag list is `["Foo Bar"]` rewrites the tags to `["FooBar"]`
(the tag merge re-normalizes the accumulator), and folding a record with
`NotifyInterval = 7` into the zero record yields 5, not 7 (so the zero
record is not a left identity either). -/
theorem mergeZeroIdentity_cex :
    ((BotV1.mergeConfigs BotV1.envNone "" 1 []
        { BotV1.newConfig with StreamTags := ["Foo Bar"] } BotV1.absentConfig).map
        (fun r => r.1.StreamTags) = some ["FooBar"])
    ∧ (["FooBar"] : List String) ≠ ["Foo Bar"]
    ∧ ((BotV1.mergeConfigs BotV1.envNone "" 1 [] BotV1.absentConfig
        { BotV1.newConfig with NotifyInterval := 7 }).map
        (fun r => r.1.NotifyInterval) = some 5)
    ∧ (5 : Int) ≠ 7 := by
  refine ⟨rfl, by decide, rfl, by decide⟩

/-- C3 amended: folding the zero-value record (as produced for an absent
source) into an accumulator leaves every field of the accumulator
unchanged — so the zero record is a right identity of the merge —
provided the accumulator's tag list is stable under the dedup
normalization and its `NotifyInterval` is at most the default 5 (both
hold for every accumulator the pipeline actually produces); it is not a
left identity. -/
theorem mergeZeroIdentity (env : String → Option BotV1.DecodedFields) (root : String)
    (fuel : Nat) (seen : List String) (o : BotV1.config)
    (h1 : removeDuplicateStr o.StreamTags = o.StreamTags)
    (h2 : o.NotifyInterval ≤ 5) :
    BotV1.mergeConfigs env root (fuel + 1) seen o BotV1.absentConfig = some (o, seen) := by
  rw [BotV1.mergeConfigs_no_include env root fuel seen o BotV1.absentConfig rfl,
    BotV1.mergeCore_absent o h1 h2]

/-- C3 witness: folding the absent record into the fresh default record
changes nothing. -/
theorem mergeZeroIdentity_witness :
    BotV1.mergeConfigs BotV1.envNone "" 1 [] BotV1.newConfig BotV1.absentConfig
      = some (BotV1.newConfig, []) :=
  mergeZeroIdentity BotV1.envNone "" 0 [] BotV1.newConfig rfl (by decide)

/-- C4 counterexample: the decoder can change the found flag.  A present
source whose JSON body sets `"gamefound": false` decodes to a record
with `GameFound = false`, although the caller had set it to `true` —
`found` is not determined only by source presence. -/
theorem readFromFile_found_cex :
    ((fun s => if s = "g.json" then some ({ GameFound := some false } : BotV1.DecodedFields)
      else none) "g.json").isSome = true
    ∧ (BotV1.readFromFile
        (fun s => if s = "g.json" then some { GameFound := some false } else none)
        "g.json").GameFound = false :=
  ⟨rfl, rfl⟩

/-- C4 amended: decoding never fails the run.  An absent source yields
the zero-value record with `found = false`; a present but malformed
stream decodes no field, yielding the zero-value record with `found`
exactly as the caller set it (`true`); and the decoder leaves the found
flag as the caller set it provided the input does not itself carry the
`gamefound` key — an input carrying that key overrides the flag.
Stated for both variants of `readFromFile` in botconfig.go. -/
theorem readFromFile_found (env : String → Option BotV1.DecodedFields)
    (env2 : String → Option BotV2.DecodedFields) (f : String) :
    (env f = none → BotV1.readFromFile env f = BotV1.absentConfig)
    ∧ (env f = some BotV1.malformedDecode →
        BotV1.readFromFile env f = { BotV1.newConfig with GameFound := true })
    ∧ (∀ p, env f = some p → p.GameFound = none →
        (BotV1.readFromFile env f).GameFound = true)
    ∧ (env2 f = none → BotV2.readFromFile env2 f = BotV2.absentConfig)
    ∧ (env2 f = some BotV2.malformedDecode →
        BotV2.readFromFile env2 f = { BotV2.newConfig with GameFound := true })
    ∧ (∀ p, env2 f = some p → p.GameFound = none →
        (BotV2.readFromFile env2 f).GameFound = true) := by
  refine ⟨fun h => ?_, fun h => ?_, fun p h hp => ?_, fun h => ?_, fun h => ?_,
    fun p h hp => ?_⟩
  · simp [BotV1.readFromFile, h, BotV1.absentConfig]
  · simp only [BotV1.readFromFile, h]
    rfl
  · simp only [BotV1.readFromFile, h, BotV1.applyDecoded, hp]
    rfl
  · simp [BotV2.readFromFile, h, BotV2.absentConfig]
  · simp only [BotV2.readFromFile, h]
    rfl
  · simp only [BotV2.readFromFile, h, BotV2.applyDecoded, hp]
    rfl

/-- C4 witness: an absent file, a present malformed file, and a present
file that does not carry the `gamefound` key, each behaving as the
amended claim states. -/
theorem readFromFile_found_witness :
    BotV1.readFromFile BotV1.envNone "x.json" = BotV1.absentConfig
    ∧ BotV1.readFromFile (fun _ => some BotV1.malformedDecode) "x.json"
        = { BotV1.newConfig with GameFound := true }
    ∧ (BotV1.readFromFile (fun _ => some { Include := some "A" }) "x.json").GameFound
        = true :=
  ⟨(readFromFile_found BotV1.envNone BotV2.envNone "x.json").1 rfl,
   (readFromFile_found (fun _ => some BotV1.malformedDecode) BotV2.envNone "x.json").2.1 rfl,
   (readFromFile_found (fun _ => some { Include := some "A" }) BotV2.envNone
      "x.json").2.2.1 _ rfl rfl⟩

/-- C5: the final override pass returns exactly the first 10 elements of
the tag list as it stands after mode-tag injection, so the output list
never exceeds 10 elements; the per-layer fold never truncates — with no
include files on disk, a merge's tag list is the full deduplicated union
of the two inputs, whatever its length.  Stated for both variants. -/
theorem streamTags_cap :
    (∀ (onc : Bool) (c : BotV1.config),
      (BotV1.applyOverrides onc c).StreamTags
          = ((BotV1.applyOverridesPre c).StreamTags).take 10
        ∧ (BotV1.applyOverrides onc c).StreamTags.length ≤ 10)
    ∧ (∀ (root : String) (seen : List String) (o n : BotV1.config),
      ∃ r, BotV1.mergeConfigs BotV1.envNone root 1 seen o n = some r
        ∧ r.1.StreamTags = removeDuplicateStr (o.StreamTags ++ n.StreamTags))
    ∧ (∀ (g : String) (onc : Bool) (c : BotV2.config),
      (BotV2.applyOverrides g onc c).StreamTags
          = ((BotV2.applyOverridesPre c).StreamTags).take 10
        ∧ (BotV2.applyOverrides g onc c).StreamTags.length ≤ 10)
    ∧ (∀ (root : String) (seen : List String) (o n : BotV2.config),
      ∃ r, BotV2.mergeConfigs BotV2.envNone root 1 seen o n = some r
        ∧ r.1.StreamTags = removeDuplicateStr (o.StreamTags ++ n.StreamTags)) := by
  refine ⟨fun onc c => ?_, fun root seen o n => ?_, fun g onc c => ?_,
    fun root seen o n => ?_⟩
  · have h : (BotV1.applyOverrides onc c).StreamTags
        = ((BotV1.applyOverridesPre c).StreamTags).take 10 := by
      rw [BotV1.applyOverrides, BotV1.onCallStep_StreamTags, BotV1.capTags_StreamTags]
    refine ⟨h, ?_⟩
    rw [h, List.length_take]
    exact min_le_left _ _
  · obtain ⟨seen2, hm⟩ := BotV1.mergeConfigs_envNone root 0 seen o n
    exact ⟨(BotV1.mergeCore o n, seen2), hm, BotV1.mergeCore_StreamTags o n⟩
  · have h : (BotV2.applyOverrides g onc c).StreamTags
        = ((BotV2.applyOverridesPre c).StreamTags).take 10 := by
      rw [BotV2.applyOverrides, BotV2.onCallStep_StreamTags2]
      exact BotV2.capTags_StreamTags2 _
    refine ⟨h, ?_⟩
    rw [h, List.length_take]
    exact min_le_left _ _
  · obtain ⟨seen2, hm⟩ := BotV2.mergeConfigs_envNone2 root 0 seen o n
    refine ⟨(BotV2.mergeRest (BotV2.mergeTags o n) n, seen2), hm, ?_⟩
    rw [BotV2.mergeRest_StreamTags]
    rfl

/-- C6: `removeDuplicateStr` merges tag lists as a union in first-seen
order with de-duplication after removing internal whitespace: merging a
list containing `"Foo Bar"` with one containing `"FooBar"` yields a
single element; merging a list with itself lists each element once; the
output has no duplicates, contains exactly the space-stripped input
elements, and preserves their order (it is a sublist of the
space-stripped input). -/
theorem removeDuplicateStr_union :
    removeDuplicateStr (["Foo Bar"] ++ ["FooBar"]) = ["FooBar"]
    ∧ (∀ l : List String, removeDuplicateStr (l ++ l) = removeDuplicateStr l)
    ∧ (∀ l : List String, (removeDuplicateStr l).Nodup)
    ∧ (∀ (l : List String) (x : String),
        x ∈ removeDuplicateStr l ↔ x ∈ l.map stripSpaces)
    ∧ (∀ l : List String, List.Sublist (removeDuplicateStr l) (l.map stripSpaces)) :=
  ⟨rfl, removeDuplicateStr_append_self, nodup_removeDuplicateStr,
   mem_removeDuplicateStr, removeDuplicateStr_sublist⟩

/-- C7: over a pipeline run with no include files, if every folded layer
carries both LP cost fields at their default sentinels the final merged
values equal the defaults, and if exactly one folded layer carries a
non-sentinel value for one of the cost fields the final merged value of
that field equals that layer's value.  Stated for both variants of
`mergeConfigs`. -/
theorem lpCost_sentinel :
    (∀ (root : String) (layers : List BotV1.config) (seen : List String),
      (∀ l ∈ layers, l.LPGameCost = defaultLPGameCost
        ∧ l.LPTalkingCost = defaultLPTalkingCost) →
      ∃ res, BotV1.foldLayers BotV1.envNone root 1 seen BotV1.newConfig layers = some res
        ∧ res.1.LPGameCost = defaultLPGameCost
        ∧ res.1.LPTalkingCost = defaultLPTalkingCost)
    ∧ (∀ (root : String) (pre post : List BotV1.config) (l : BotV1.config)
        (seen : List String),
      (∀ m ∈ pre, m.LPGameCost = defaultLPGameCost) →
      (∀ m ∈ post, m.LPGameCost = defaultLPGameCost) →
      l.LPGameCost ≠ defaultLPGameCost →
      ∃ res, BotV1.foldLayers BotV1.envNone root 1 seen BotV1.newConfig (pre ++ l :: post)
          = some res
        ∧ res.1.LPGameCost = l.LPGameCost)
    ∧ (∀ (root : String) (pre post : List BotV1.config) (l : BotV1.config)
        (seen : List String),
      (∀ m ∈ pre, m.LPTalkingCost = defaultLPTalkingCost) →
      (∀ m ∈ post, m.LPTalkingCost = defaultLPTalkingCost) →
      l.LPTalkingCost ≠ defaultLPTalkingCost →
      ∃ res, BotV1.foldLayers BotV1.envNone root 1 seen BotV1.newConfig (pre ++ l :: post)
          = some res
        ∧ res.1.LPTalkingCost = l.LPTalkingCost)
    ∧ (∀ (root : String) (layers : List BotV2.config) (seen : List String),
      (∀ l ∈ layers, l.LPGameCost = defaultLPGameCost
        ∧ l.LPTalkingCost = defaultLPTalkingCost) →
      ∃ res, BotV2.foldLayers BotV2.envNone root 1 seen BotV2.newConfig layers = some res
        ∧ res.1.LPGameCost = defaultLPGameCost
        ∧ res.1.LPTalkingCost = defaultLPTalkingCost)
    ∧ (∀ (root : String) (pre post : List BotV2.config) (l : BotV2.config)
        (seen : List String),
      (∀ m ∈ pre, m.LPGameCost = defaultLPGameCost) →
      (∀ m ∈ post, m.LPGameCost = defaultLPGameCost) →
      l.LPGameCost ≠ defaultLPGameCost →
      ∃ res, BotV2.foldLayers BotV2.envNone root 1 seen BotV2.newConfig (pre ++ l :: post)
          = some res
        ∧ res.1.LPGameCost = l.LPGameCost) := by
  refine ⟨fun root layers seen hall => ?_, fun root pre post l seen hpre hpost hl => ?_,
    fun root pre post l seen hpre hpost hl => ?_, fun root layers seen hall => ?_,
    fun root pre post l seen hpre hpost hl => ?_⟩
  · obtain ⟨res, hf, hp⟩ := BotV1.foldLayers_envNone_keep root
      (fun c => (c.LPGameCost, c.LPTalkingCost))
      (fun m => m.LPGameCost = defaultLPGameCost ∧ m.LPTalkingCost = defaultLPTalkingCost)
      (fun acc m hm => by
        simp [BotV1.mergeCore_LPGameCost, BotV1.mergeCore_LPTalkingCost, hm.1, hm.2])
      layers seen BotV1.newConfig hall
    rw [Prod.mk.injEq] at hp
    exact ⟨res, hf, hp.1, hp.2⟩
  · obtain ⟨res, hf, hp⟩ := BotV1.foldLayers_envNone_one root (fun c => c.LPGameCost)
      (fun m => m.LPGameCost = defaultLPGameCost) l l.LPGameCost
      (fun acc m hm => by simp [BotV1.mergeCore_LPGameCost, hm])
      (fun acc => by
        show (BotV1.mergeCore acc l).LPGameCost = l.LPGameCost
        rw [BotV1.mergeCore_LPGameCost, if_pos hl])
      pre post seen BotV1.newConfig hpre hpost
    exact ⟨res, hf, hp⟩
  · obtain ⟨res, hf, hp⟩ := BotV1.foldLayers_envNone_one root (fun c => c.LPTalkingCost)
      (fun m => m.LPTalkingCost = defaultLPTalkingCost) l l.LPTalkingCost
      (fun acc m hm => by simp [BotV1.mergeCore_LPTalkingCost, hm])
      (fun acc => by
        show (BotV1.mergeCore acc l).LPTalkingCost = l.LPTalkingCost
        rw [BotV1.mergeCore_LPTalkingCost, if_pos hl])
      pre post seen BotV1.newConfig hpre hpost
    exact ⟨res, hf, hp⟩
  · obtain ⟨res, hf, hp⟩ := BotV2.foldLayers_envNone_keep2 root
      (fun c => (c.LPGameCost, c.LPTalkingCost))
      (fun m => m.LPGameCost = defaultLPGameCost ∧ m.LPTalkingCost = defaultLPTalkingCost)
      (fun acc m hm => by
        simp [BotV2.mergeRest_LPGameCost, BotV2.mergeRest_LPTalkingCost,
          BotV2.mergeTags_LPGameCost, BotV2.mergeTags_LPTalkingCost, hm.1, hm.2])
      layers seen BotV2.newConfig hall
    rw [Prod.mk.injEq] at hp
    exact ⟨res, hf, hp.1, hp.2⟩
  · obtain ⟨res, hf, hp⟩ := BotV2.foldLayers_envNone_one2 root (fun c => c.LPGameCost)
      (fun m => m.LPGameCost = defaultLPGameCost) l l.LPGameCost
      (fun acc m hm => by
        simp [BotV2.mergeRest_LPGameCost, BotV2.mergeTags_LPGameCost, hm])
      (fun acc => by
        show (BotV2.mergeRest (BotV2.mergeTags acc l) l).LPGameCost = l.LPGameCost
        rw [BotV2.mergeRest_LPGameCost, if_pos hl])
      pre post seen BotV2.newConfig hpre hpost
    exact ⟨res, hf, hp⟩

/-- C7 witness: one layer carrying `LPGameCost = 42` (all other fields
default) folded alone yields 42; with no layers at all both cost fields
stay at their defaults. -/
theorem lpCost_sentinel_witness :
    (BotV1.foldLayers BotV1.envNone "" 1 [] BotV1.newConfig
        ([] ++ { BotV1.newConfig with LPGameCost := 42 } :: [])).map
        (fun r => r.1.LPGameCost) = some 42
    ∧ (BotV1.foldLayers BotV1.envNone "" 1 [] BotV1.newConfig []).map
        (fun r => (r.1.LPGameCost, r.1.LPTalkingCost))
        = some (defaultLPGameCost, defaultLPTalkingCost) := by
  constructor
  · obtain ⟨res, hf, hv⟩ := lpCost_sentinel.2.1 ""
      [] [] { BotV1.newConfig with LPGameCost := 42 } []
      (by simp) (by simp) (by decide)
    rw [hf, Option.map_some', hv]
  · obtain ⟨res, hf, hg, ht⟩ := lpCost_sentinel.1 "" [] [] (by simp)
    rw [hf, Option.map_some', hg, ht]

/-- C8: the boolean field resolver is commutative, and the boolean pass
of the merge is commutative and associative field by field; hence
permuting the fold order of layers cannot change any boolean field
produced by the boolean resolution pass. -/
theorem resolveBool_comm_assoc :
    ∀ (a b c : BotV1.config) (f : BotV1.BoolField),
      BotV1.resolveBool a b f = BotV1.resolveBool b a f
      ∧ BotV1.getBool (BotV1.resolveAllBools a b) f
          = BotV1.getBool (BotV1.resolveAllBools b a) f
      ∧ BotV1.getBool (BotV1.resolveAllBools (BotV1.resolveAllBools a b) c) f
          = BotV1.getBool (BotV1.resolveAllBools a (BotV1.resolveAllBools b c)) f := by
  intro a b c f
  have hcomm : BotV1.resolveBool a b f = BotV1.resolveBool b a f := by
    unfold BotV1.resolveBool
    split
    · exact Bool.and_comm _ _
    · exact Bool.or_comm _ _
  refine ⟨hcomm, ?_, ?_⟩
  · rw [BotV1.getBool_resolveAllBools, BotV1.getBool_resolveAllBools]
    exact hcomm
  · cases hd : BotV1.getBool BotV1.newConfig f with
    | true =>
      simp only [BotV1.getBool_resolveAllBools, BotV1.resolveBool, hd, if_true]
      exact Bool.and_assoc _ _ _
    | false =>
      simp only [BotV1.getBool_resolveAllBools, BotV1.resolveBool, hd, if_false]
      exact Bool.or_assoc _ _ _

/-- C9: `GameFound` and `OnCall` have declared default `false`, so the
generic reflection-driven rule merges them by OR: whenever either input
of a fold has the flag `true`, the merged record has it `true` — through
the whole merge, include recursion included.  Stated for both variants. -/
theorem gameFound_onCall_or :
    (BotV1.getBool BotV1.newConfig BotV1.BoolField.GameFound = false
      ∧ BotV1.getBool BotV1.newConfig BotV1.BoolField.OnCall = false)
    ∧ (∀ (env : String → Option BotV1.DecodedFields) (root : String) (fuel : Nat)
        (seen : List String) (o n : BotV1.config) (res : BotV1.config × List String),
        BotV1.mergeConfigs env root fuel seen o n = some res →
        (o.GameFound || n.GameFound) = true → res.1.GameFound = true)
    ∧ (∀ (env : String → Option BotV1.DecodedFields) (root : String) (fuel : Nat)
        (seen : List String) (o n : BotV1.config) (res : BotV1.config × List String),
        BotV1.mergeConfigs env root fuel seen o n = some res →
        (o.OnCall || n.OnCall) = true → res.1.OnCall = true)
    ∧ (∀ (env : String → Option BotV2.DecodedFields) (root : String) (fuel : Nat)
        (seen : List String) (o n : BotV2.config) (res : BotV2.config × List String),
        BotV2.mergeConfigs env root fuel seen o n = some res →
        (o.GameFound || n.GameFound) = true → res.1.GameFound = true)
    ∧ (∀ (env : String → Option BotV2.DecodedFields) (root : String) (fuel : Nat)
        (seen : List String) (o n : BotV2.config) (res : BotV2.config × List String),
        BotV2.mergeConfigs env root fuel seen o n = some res →
        (o.OnCall || n.OnCall) = true → res.1.OnCall = true) := by
  refine ⟨⟨rfl, rfl⟩, ?_, ?_, ?_, ?_⟩
  · exact fun env root fuel seen o n res h hg =>
      BotV1.mergeConfigs_bool_or env root (fun c => c.GameFound)
        BotV1.mergeCore_GameFound fuel seen o n res h hg
  · exact fun env root fuel seen o n res h hg =>
      BotV1.mergeConfigs_bool_or env root (fun c => c.OnCall)
        BotV1.mergeCore_OnCall fuel seen o n res h hg
  · exact fun env root fuel seen o n res h hg =>
      BotV2.mergeConfigs_bool_or2 env root (fun c => c.GameFound)
        BotV2.mergeRest_GameFound BotV2.mergeTags_GameFound fuel seen o n res h hg
  · exact fun env root fuel seen o n res h hg =>
      BotV2.mergeConfigs_bool_or2 env root (fun c => c.OnCall)
        BotV2.mergeRest_OnCall BotV2.mergeTags_OnCall fuel seen o n res h hg

/-- C9 witness: merging an accumulator with `GameFound = true` against
the absent record keeps `GameFound = true`. -/
theorem gameFound_onCall_or_witness :
    (BotV1.mergeConfigs BotV1.envNone "" 1 []
      { BotV1.newConfig with GameFound := true } BotV1.absentConfig).map
      (fun r => r.1.GameFound) = some true := by
  have h : BotV1.mergeConfigs BotV1.envNone "" 1 []
      { BotV1.newConfig with GameFound := true } BotV1.absentConfig
      = some (BotV1.mergeCore { BotV1.newConfig with GameFound := true }
          BotV1.absentConfig, []) :=
    BotV1.mergeConfigs_no_include BotV1.envNone "" 0 [] _ _ rfl
  rw [h, Option.map_some']
  exact congrArg some (gameFound_onCall_or.2.1 BotV1.envNone "" 1 [] _ _ _ h (by decide))

/-- C10: in the model-config variant, a record whose `ConfigFound` flag
is `false` leaves the finalize pass with every boolean field `false`
(all redeems disabled, `ConfigFound` itself still `false`) and with the
include reference cleared. -/
theorem modelOverrides_disable (c : Model.config) (h : c.ConfigFound = false) :
    (∀ f, Model.getBool (Model.applyOverrides c) f = false)
    ∧ (Model.applyOverrides c).Include = "" := by
  have hif : Model.applyOverrides c
      = Model.setAllBoolsFalse { c with Include := "" } := by
    simp only [Model.applyOverrides]
    rw [if_pos (by simp [h])]
  constructor
  · intro f
    rw [hif]
    exact Model.getBool_setAllBoolsFalse _ f
  · rw [hif, Model.setAllBoolsFalse_Include]

/-- C10 witness: the zero-value model record (which has
`ConfigFound = false`) leaves the finalize pass with a sample redeem
disabled and the include reference empty. -/
theorem modelOverrides_disable_witness :
    Model.getBool (Model.applyOverrides {}) Model.BoolField.Bonk = false
    ∧ (Model.applyOverrides {}).Include = "" :=
  ⟨(modelOverrides_disable {} rfl).1 Model.BoolField.Bonk,
   (modelOverrides_disable {} rfl).2⟩
